import Mathlib

/-!
# Shallow embedding of the KuzuDB graph-store orchestration layer

This development embeds the Go implementation of the KuzuDB graph store
(type conversion between host values and engine values, schema/table
management with a creation cache, the document import pipeline with its
individual and batched write paths, the logical transaction state machine,
and the deduplication helpers) as executable Lean definitions, and proves
theorems about them.

Modelling conventions:
* Go `interface{}` host values are the closed inductive `GoValue`
  (the reflection fallback for pointer/struct host types is outside this
  closed universe and is not needed by any theorem below).
* Go machine integers are `Int`/`Nat` with explicit two's-complement
  wrapping where the code narrows; Go floats are carried opaquely as `Rat`
  (the converter only passes them through or retags them; no theorem below
  depends on float rounding or formatting).
* `time.Time` is `GoTime`: a wall-clock date/time plus a zone offset in
  minutes.  The converter's date and timestamp layouts are the defaults
  from `NewTypeConverter` ("2006-01-02" and RFC3339), modelled by the
  concrete `formatDate`/`parseDate`/`formatTimestamp`/`parseTimestamp`
  below.
* The external `encoding/json` library is a black box, modelled by oracle
  fields on `TypeConverter`; no theorem below depends on their behaviour.
* The engine itself is external.  Its observable behaviour is a state
  (`KState`): the ordered log of issued statements, the table-creation
  caches, and the persisted node store with merge/upsert semantics.
  Engine calls are modelled as always succeeding; Go map iteration order
  (randomized at runtime) is modelled as first-seen key order wherever a
  map is iterated, except where a theorem is specifically about order
  (in)dependence.
-/

namespace KuzuSpec

/-! ## Two's-complement wrapping for Go integer conversions -/

/-- Wrap an integer into the signed `w`-bit range, as Go's integer
conversions do. -/
def wrapSigned (w : Nat) (n : Int) : Int :=
  (n + 2 ^ (w - 1)) % (2 ^ w : Nat) - 2 ^ (w - 1)

/-- Wrap an integer into the unsigned `w`-bit range, as Go's integer
conversions do. -/
def wrapUnsigned (w : Nat) (n : Int) : Nat :=
  (n % (2 ^ w : Nat)).toNat

/-! ## Dates and times

`GoTime` models `time.Time` as wall-clock fields plus a zone offset in
minutes (0 = UTC, rendered "Z").  Monotonic-clock and location-name data
carried by `time.Time` are not observable through the code under study. -/

structure GoTime where
  year : Nat
  month : Nat
  day : Nat
  hour : Nat
  minute : Nat
  second : Nat
  nano : Nat
  offsetMin : Int
deriving DecidableEq

def isLeapYear (y : Nat) : Bool :=
  y % 4 = 0 && (y % 100 ≠ 0 || y % 400 = 0)

def daysInMonth (y m : Nat) : Nat :=
  if m = 2 then (if isLeapYear y then 29 else 28)
  else if m = 4 ∨ m = 6 ∨ m = 9 ∨ m = 11 then 30
  else 31

/-- A `GoTime` whose date and clock fields are in the ranges Go's
`time.Parse` validates, with a four-digit year. -/
def validTime (t : GoTime) : Prop :=
  t.year ≤ 9999 ∧ 1 ≤ t.month ∧ t.month ≤ 12 ∧
  1 ≤ t.day ∧ t.day ≤ daysInMonth t.year t.month ∧
  t.hour ≤ 23 ∧ t.minute ≤ 59 ∧ t.second ≤ 59

instance (t : GoTime) : Decidable (validTime t) := by
  unfold validTime; infer_instance

def digitChar (n : Nat) : Char := Char.ofNat (48 + n)

def digitVal (c : Char) : Nat := c.toNat - 48

def pad2 (n : Nat) : List Char := [digitChar (n / 10 % 10), digitChar (n % 10)]

def pad4 (n : Nat) : List Char :=
  [digitChar (n / 1000 % 10), digitChar (n / 100 % 10),
   digitChar (n / 10 % 10), digitChar (n % 10)]

/-- The character list of `t.Format("2006-01-02")` (years above 9999,
which Go prints with more digits, are excluded by `validTime`). -/
def formatDateChars (t : GoTime) : List Char :=
  pad4 t.year ++ '-' :: (pad2 t.month ++ '-' :: pad2 t.day)

/-- Model of `t.Format("2006-01-02")`, the converter's default date layout. -/
def formatDate (t : GoTime) : String := String.mk (formatDateChars t)

/-- Model of `time.Parse("2006-01-02", s)`: exactly `dddd-dd-dd` with the month and
day ranges Go validates.  The result has a zero clock in UTC. -/
def parseDate (s : String) : Option GoTime :=
  match s.data with
  | [y1, y2, y3, y4, h1, m1, m2, h2, d1, d2] =>
    if y1.isDigit ∧ y2.isDigit ∧ y3.isDigit ∧ y4.isDigit ∧
       h1 = '-' ∧ m1.isDigit ∧ m2.isDigit ∧ h2 = '-' ∧
       d1.isDigit ∧ d2.isDigit then
      let y := ((digitVal y1 * 10 + digitVal y2) * 10 + digitVal y3) * 10 + digitVal y4
      let m := digitVal m1 * 10 + digitVal m2
      let d := digitVal d1 * 10 + digitVal d2
      if 1 ≤ m ∧ m ≤ 12 ∧ 1 ≤ d ∧ d ≤ daysInMonth y m then
        some ⟨y, m, d, 0, 0, 0, 0, 0⟩
      else none
    else none
  | _ => none

def formatClockChars (t : GoTime) : List Char :=
  pad2 t.hour ++ ':' :: (pad2 t.minute ++ ':' :: pad2 t.second)

/-- The zone suffix of an RFC3339 rendering: "Z" for offset 0, otherwise
a signed `hh:mm` offset. -/
def formatZoneChars (off : Int) : List Char :=
  if off = 0 then ['Z']
  else (if 0 < off then '+' else '-') ::
    (pad2 (off.natAbs / 60) ++ ':' :: pad2 (off.natAbs % 60))

/-- Model of `t.Format(time.RFC3339)`: note RFC3339 carries no fractional seconds,
so nanoseconds are dropped by formatting. -/
def formatTimestamp (t : GoTime) : String :=
  String.mk (formatDateChars t ++ 'T' :: (formatClockChars t ++ formatZoneChars t.offsetMin))

/-- Parse an RFC3339 zone suffix: "Z" or `±hh:mm`. -/
def parseZone (l : List Char) : Option Int :=
  match l with
  | ['Z'] => some 0
  | [sg, a, b, c, d, e] =>
    if (sg = '+' ∨ sg = '-') ∧ a.isDigit ∧ b.isDigit ∧ c = ':' ∧ d.isDigit ∧ e.isDigit then
      let h := digitVal a * 10 + digitVal b
      let m := digitVal d * 10 + digitVal e
      if h ≤ 23 ∧ m ≤ 59 then
        some (if sg = '+' then (h * 60 + m : Int) else -(h * 60 + m : Int))
      else none
    else none
  | _ => none

/-- Turn a run of fractional-second digits into nanoseconds (Go reads at
most nine digits of precision). -/
def nanoOfDigits (ds : List Char) : Nat :=
  let ds9 := ds.take 9
  (ds9.foldl (fun a c => a * 10 + digitVal c) 0) * 10 ^ (9 - ds9.length)

/-- Parse the optional fractional seconds and the zone that follow the
seconds field of an RFC3339 string. -/
def parseFracZone (l : List Char) : Option (Nat × Int) :=
  match l with
  | '.' :: more =>
    let ds := more.takeWhile Char.isDigit
    let rest := more.dropWhile Char.isDigit
    if ds = [] then none
    else (parseZone rest).map fun off => (nanoOfDigits ds, off)
  | _ => (parseZone l).map fun off => (0, off)

/-- Model of `time.Parse(time.RFC3339, s)`: `dddd-dd-ddTdd:dd:dd`, optional
fractional seconds, then "Z" or a signed offset, with Go's range
validation. -/
def parseTimestamp (s : String) : Option GoTime :=
  match s.data with
  | y1 :: y2 :: y3 :: y4 :: c1 :: mo1 :: mo2 :: c2 :: d1 :: d2 :: tc ::
    h1 :: h2 :: c3 :: mi1 :: mi2 :: c4 :: s1 :: s2 :: rest =>
    if y1.isDigit ∧ y2.isDigit ∧ y3.isDigit ∧ y4.isDigit ∧ c1 = '-' ∧
       mo1.isDigit ∧ mo2.isDigit ∧ c2 = '-' ∧ d1.isDigit ∧ d2.isDigit ∧
       tc = 'T' ∧ h1.isDigit ∧ h2.isDigit ∧ c3 = ':' ∧
       mi1.isDigit ∧ mi2.isDigit ∧ c4 = ':' ∧ s1.isDigit ∧ s2.isDigit then
      let y := ((digitVal y1 * 10 + digitVal y2) * 10 + digitVal y3) * 10 + digitVal y4
      let mo := digitVal mo1 * 10 + digitVal mo2
      let d := digitVal d1 * 10 + digitVal d2
      let h := digitVal h1 * 10 + digitVal h2
      let mi := digitVal mi1 * 10 + digitVal mi2
      let sec := digitVal s1 * 10 + digitVal s2
      match parseFracZone rest with
      | some (nano, off) =>
        if 1 ≤ mo ∧ mo ≤ 12 ∧ 1 ≤ d ∧ d ≤ daysInMonth y mo ∧
           h ≤ 23 ∧ mi ≤ 59 ∧ sec ≤ 59 then
          some ⟨y, mo, d, h, mi, sec, nano, off⟩
        else none
      | none => none
    else none
  | _ => none

/-! ## Host values and engine types

`GoValue` is the closed universe of `interface{}` values handled by the
type-switch of `ConvertGoValueToKuzu`.  The reflection fallback for
pointer/struct host values lies outside this universe. -/

inductive KuzuDataType where
  | STRING | BOOL
  | INT8 | INT16 | INT32 | INT64
  | UINT8 | UINT16 | UINT32 | UINT64
  | FLOAT | DOUBLE
  | DATE | TIMESTAMP | INTERVAL
  | LIST | STRUCT | MAP | UNION
  | NODE | RELATIONSHIP | PATH
deriving DecidableEq

/-- The engine-side name of the type tag (the `KuzuDataType` string
constants in the source). -/
def KuzuDataType.text : KuzuDataType → String
  | .STRING => "STRING" | .BOOL => "BOOL"
  | .INT8 => "INT8" | .INT16 => "INT16" | .INT32 => "INT32" | .INT64 => "INT64"
  | .UINT8 => "UINT8" | .UINT16 => "UINT16" | .UINT32 => "UINT32" | .UINT64 => "UINT64"
  | .FLOAT => "FLOAT" | .DOUBLE => "DOUBLE"
  | .DATE => "DATE" | .TIMESTAMP => "TIMESTAMP" | .INTERVAL => "INTERVAL"
  | .LIST => "LIST" | .STRUCT => "STRUCT" | .MAP => "MAP" | .UNION => "UNION"
  | .NODE => "NODE" | .RELATIONSHIP => "RELATIONSHIP" | .PATH => "PATH"

inductive GoValue where
  | nil
  | str (s : String)
  | bool (b : Bool)
  | int (n : Int)
  | int8 (n : Int)
  | int16 (n : Int)
  | int32 (n : Int)
  | int64 (n : Int)
  | uint (n : Nat)
  | uint8 (n : Nat)
  | uint16 (n : Nat)
  | uint32 (n : Nat)
  | uint64 (n : Nat)
  | float32 (q : Rat)
  | float64 (q : Rat)
  | time (t : GoTime)
  | list (xs : List GoValue)
  | map (m : List (String × GoValue))

/-- Go's `%T` rendering of the dynamic type, used in conversion error
messages. -/
def goTypeName : GoValue → String
  | .nil => "<nil>"
  | .str _ => "string"
  | .bool _ => "bool"
  | .int _ => "int"
  | .int8 _ => "int8"
  | .int16 _ => "int16"
  | .int32 _ => "int32"
  | .int64 _ => "int64"
  | .uint _ => "uint"
  | .uint8 _ => "uint8"
  | .uint16 _ => "uint16"
  | .uint32 _ => "uint32"
  | .uint64 _ => "uint64"
  | .float32 _ => "float32"
  | .float64 _ => "float64"
  | .time _ => "time.Time"
  | .list _ => "[]interface \x7b\x7d"
  | .map _ => "map[string]interface \x7b\x7d"

mutual

/-- Go's `fmt.Sprintf("%v", v)`.  Strings, booleans and integers are
rendered exactly; Go's float and `time.Time` renderings are approximated
(no theorem below depends on them). -/
def goFormat : GoValue → String
  | .nil => "<nil>"
  | .str s => s
  | .bool b => if b then "true" else "false"
  | .int n => toString n
  | .int8 n => toString n
  | .int16 n => toString n
  | .int32 n => toString n
  | .int64 n => toString n
  | .uint n => toString n
  | .uint8 n => toString n
  | .uint16 n => toString n
  | .uint32 n => toString n
  | .uint64 n => toString n
  | .float32 q => toString q
  | .float64 q => toString q
  | .time t => formatTimestamp t
  | .list xs => "[" ++ goFormatSeq xs ++ "]"
  | .map m => "map[" ++ goFormatEntries m ++ "]"
termination_by v => sizeOf v

def goFormatSeq : List GoValue → String
  | [] => ""
  | [x] => goFormat x
  | x :: y :: xs => goFormat x ++ " " ++ goFormatSeq (y :: xs)
termination_by l => sizeOf l

def goFormatEntries : List (String × GoValue) → String
  | [] => ""
  | [(k, v)] => k ++ ":" ++ goFormat v
  | (k, v) :: e :: rest => k ++ ":" ++ goFormat v ++ " " ++ goFormatEntries (e :: rest)
termination_by l => sizeOf l

end

/-! ## The type converter

`HostLib` packages the behaviour of the external Go libraries the
converter calls into (`encoding/json` and `strconv.ParseFloat`): they are
black boxes here, and every theorem below either quantifies over them or
avoids the branches that consult them.
`jsonPromote s` stands for the composite "`json.Unmarshal(s)` succeeded
and recursively converting the decoded value produced this result". -/

structure HostLib where
  jsonPromote : String → Option (Except String (GoValue × KuzuDataType))
  jsonList : String → Option (List GoValue)
  jsonStruct : String → Option (List (String × GoValue))
  parseFloat : Nat → String → Option Rat

/-- A `HostLib` on which every external call fails to parse; used only
to instantiate theorems at concrete inputs that never reach these
branches. -/
def nullHostLib : HostLib :=
  ⟨fun _ => none, fun _ => none, fun _ => none, fun _ _ => none⟩

/-- The `TypeConverter` configuration.  `DateFormat` and
`TimestampFormat` are fixed to the defaults of `NewTypeConverter`
("2006-01-02" and `time.RFC3339`), which are baked into
`parseDate`/`formatDate`/`parseTimestamp`/`formatTimestamp`;
`DecimalPrecision` is never read by the code under study. -/
structure TypeConverter where
  strictMode : Bool
  hostLib : HostLib

/-- Model of `NewTypeConverter()`: strict mode off, default formats. -/
def NewTypeConverter (j : HostLib) : TypeConverter :=
  { strictMode := false, hostLib := j }

/-- Model of `isJSONString`: brace- or bracket-delimited (the source checks
`strings.HasPrefix`/`HasSuffix` with one-character patterns, which is
exactly a first/last character test). -/
def isJSONString (s : String) : Bool :=
  (s.data.head? == some '\x7b' && s.data.getLast? == some '\x7d') ||
  (s.data.head? == some '[' && s.data.getLast? == some ']')

/-- Model of `convertTime`: a zero time-of-day converts to a DATE rendering,
anything else to a TIMESTAMP rendering. -/
def convertTime (t : GoTime) : GoValue × KuzuDataType :=
  if t.hour = 0 ∧ t.minute = 0 ∧ t.second = 0 ∧ t.nano = 0 then
    (.str (formatDate t), .DATE)
  else
    (.str (formatTimestamp t), .TIMESTAMP)

/-- Model of `convertString`: heuristic promotion of strings, in the source's
precedence order (date, then timestamp, then JSON), falling back to a
plain string. -/
def convertStringVal (tc : TypeConverter) (s : String) :
    Except String (GoValue × KuzuDataType) :=
  match parseDate s with
  | some d => .ok (.str (formatDate d), .DATE)
  | none =>
    match parseTimestamp s with
    | some t => .ok (.str (formatTimestamp t), .TIMESTAMP)
    | none =>
      if isJSONString s then
        match tc.hostLib.jsonPromote s with
        | some r => r
        | none => .ok (.str s, .STRING)
      else .ok (.str s, .STRING)

mutual

/-- Model of `ConvertGoValueToKuzu`: the main host-to-engine conversion
type-switch. -/
def convertGo (tc : TypeConverter) : GoValue → Except String (GoValue × KuzuDataType)
  | .nil => .ok (.nil, .STRING)
  | .str s => convertStringVal tc s
  | .bool b => .ok (.bool b, .BOOL)
  | .int n => .ok (.int64 n, .INT64)
  | .int8 n => .ok (.int8 n, .INT8)
  | .int16 n => .ok (.int16 n, .INT16)
  | .int32 n => .ok (.int32 n, .INT32)
  | .int64 n => .ok (.int64 n, .INT64)
  | .uint n => .ok (.uint64 n, .UINT64)
  | .uint8 n => .ok (.uint8 n, .UINT8)
  | .uint16 n => .ok (.uint16 n, .UINT16)
  | .uint32 n => .ok (.uint32 n, .UINT32)
  | .uint64 n => .ok (.uint64 n, .UINT64)
  | .float32 q => .ok (.float32 q, .FLOAT)
  | .float64 q => .ok (.float64 q, .DOUBLE)
  | .time t => .ok (convertTime t)
  | .list xs => (convertSliceElems tc 0 none xs).map fun ys => (.list ys, .LIST)
  | .map m => (convertMapEntries tc m).map fun ys => (.map ys, .STRUCT)
termination_by v => sizeOf v

/-- Model of `convertSlice`'s element loop: the first element fixes the expected
element type; in strict mode, a later mismatch is an error. -/
def convertSliceElems (tc : TypeConverter) (i : Nat) (ety : Option KuzuDataType) :
    List GoValue → Except String (List GoValue)
  | [] => .ok []
  | x :: xs =>
    match convertGo tc x with
    | .error e => .error ("failed to convert slice element " ++ toString i ++ ": " ++ e)
    | .ok (cv, ty) =>
      match ety with
      | none => (convertSliceElems tc (i + 1) (some ty) xs).map fun ys => cv :: ys
      | some t0 =>
        if t0 ≠ ty ∧ tc.strictMode then
          .error ("inconsistent types in slice: " ++ t0.text ++ " vs " ++ ty.text)
        else (convertSliceElems tc (i + 1) (some t0) xs).map fun ys => cv :: ys
termination_by l => sizeOf l

/-- Model of `convertMap`: each value converted independently; result is a STRUCT. -/
def convertMapEntries (tc : TypeConverter) :
    List (String × GoValue) → Except String (List (String × GoValue))
  | [] => .ok []
  | (k, v) :: rest =>
    match convertGo tc v with
    | .error e => .error ("failed to convert map value for key '" ++ k ++ "': " ++ e)
    | .ok (cv, _) => (convertMapEntries tc rest).map fun ys => (k, cv) :: ys
termination_by l => sizeOf l

end

/-- Model of `ConvertGoValueToKuzu`. -/
def ConvertGoValueToKuzu (tc : TypeConverter) (v : GoValue) :
    Except String (GoValue × KuzuDataType) :=
  convertGo tc v

/-! ### Engine-to-host conversion -/

/-- Model of `strconv.ParseBool`'s accepted forms. -/
def goParseBool (s : String) : Option Bool :=
  if s = "1" ∨ s = "t" ∨ s = "T" ∨ s = "TRUE" ∨ s = "true" ∨ s = "True" then some true
  else if s = "0" ∨ s = "f" ∨ s = "F" ∨ s = "FALSE" ∨ s = "false" ∨ s = "False" then some false
  else none

/-- The value of a non-empty all-digit character run. -/
def decDigitsVal (ds : List Char) : Option Nat :=
  if ds = [] then none
  else if ds.all Char.isDigit then some (ds.foldl (fun a c => a * 10 + digitVal c) 0)
  else none

/-- Model of `strconv.ParseInt(s, 10, 64)`: optional sign, decimal digits, 64-bit
range check (Go reports out-of-range input as an error). -/
def strconvParseInt (s : String) : Option Int :=
  match s.data with
  | '+' :: ds => (decDigitsVal ds).bind fun n =>
      if (n : Int) ≤ 2 ^ 63 - 1 then some (n : Int) else none
  | '-' :: ds => (decDigitsVal ds).bind fun n =>
      if (n : Int) ≤ 2 ^ 63 then some (-(n : Int)) else none
  | ds => (decDigitsVal ds).bind fun n =>
      if (n : Int) ≤ 2 ^ 63 - 1 then some (n : Int) else none

/-- Model of `strconv.ParseUint(s, 10, 64)`: decimal digits only (no sign), 64-bit
range check. -/
def strconvParseUint (s : String) : Option Nat :=
  (decDigitsVal s.data).bind fun n => if n ≤ 2 ^ 64 - 1 then some n else none

/-- Truncation toward zero, as Go's float-to-integer conversion does for
in-range values (out-of-range behaviour is platform-specific and not
modelled; no theorem exercises it). -/
def ratTrunc (q : Rat) : Int :=
  if 0 ≤ q then q.floor else -((-q).floor)

def convertKuzuString (v : GoValue) : Except String GoValue :=
  match v with
  | .str s => .ok (.str s)
  | _ => .ok (.str (goFormat v))

def convertKuzuBool (v : GoValue) : Except String GoValue :=
  match v with
  | .bool b => .ok (.bool b)
  | .str s =>
    match goParseBool s with
    | some b => .ok (.bool b)
    | none => .error ("strconv.ParseBool: parsing " ++ s ++ ": invalid syntax")
  | .int64 n => .ok (.bool (n != 0))
  | _ => .error ("cannot convert " ++ goTypeName v ++ " to bool")

def convertKuzuInt (v : GoValue) (dt : KuzuDataType) : Except String GoValue :=
  match v with
  | .int64 n =>
    match dt with
    | .INT8 => .ok (.int8 (wrapSigned 8 n))
    | .INT16 => .ok (.int16 (wrapSigned 16 n))
    | .INT32 => .ok (.int32 (wrapSigned 32 n))
    | _ => .ok (.int64 n)
  | .float64 q => .ok (.int64 (ratTrunc q))
  | .str s =>
    match strconvParseInt s with
    | some n => .ok (.int64 n)
    | none => .error ("strconv.ParseInt: parsing " ++ s ++ " failed")
  | _ => .error ("cannot convert " ++ goTypeName v ++ " to int")

def convertKuzuUint (v : GoValue) (dt : KuzuDataType) : Except String GoValue :=
  match v with
  | .uint64 u =>
    match dt with
    | .UINT8 => .ok (.uint8 (u % 2 ^ 8))
    | .UINT16 => .ok (.uint16 (u % 2 ^ 16))
    | .UINT32 => .ok (.uint32 (u % 2 ^ 32))
    | _ => .ok (.uint64 u)
  | .int64 n => .ok (.uint64 (wrapUnsigned 64 n))
  | .float64 q => .ok (.uint64 (wrapUnsigned 64 (ratTrunc q)))
  | .str s =>
    match strconvParseUint s with
    | some n => .ok (.uint64 n)
    | none => .error ("strconv.ParseUint: parsing " ++ s ++ " failed")
  | _ => .error ("cannot convert " ++ goTypeName v ++ " to uint")

def convertKuzuFloat (tc : TypeConverter) (v : GoValue) (dt : KuzuDataType) :
    Except String GoValue :=
  match v with
  | .float64 q => if dt = .FLOAT then .ok (.float32 q) else .ok (.float64 q)
  | .int64 n => if dt = .FLOAT then .ok (.float32 (n : Rat)) else .ok (.float64 (n : Rat))
  | .str s =>
    if dt = .FLOAT then
      match tc.hostLib.parseFloat 32 s with
      | some q => .ok (.float32 q)
      | none =>
        match tc.hostLib.parseFloat 64 s with
        | some q => .ok (.float64 q)
        | none => .error ("strconv.ParseFloat: parsing " ++ s ++ " failed")
    else
      match tc.hostLib.parseFloat 64 s with
      | some q => .ok (.float64 q)
      | none => .error ("strconv.ParseFloat: parsing " ++ s ++ " failed")
  | _ => .error ("cannot convert " ++ goTypeName v ++ " to float")

def convertKuzuDate (v : GoValue) : Except String GoValue :=
  match v with
  | .str s =>
    match parseDate s with
    | some t => .ok (.time t)
    | none => .error ("parsing time " ++ s ++ " as 2006-01-02 failed")
  | .time t => .ok (.time t)
  | _ => .error ("cannot convert " ++ goTypeName v ++ " to date")

def convertKuzuTimestamp (v : GoValue) : Except String GoValue :=
  match v with
  | .str s =>
    match parseTimestamp s with
    | some t => .ok (.time t)
    | none => .error ("parsing time " ++ s ++ " as RFC3339 failed")
  | .time t => .ok (.time t)
  | _ => .error ("cannot convert " ++ goTypeName v ++ " to timestamp")

def convertKuzuList (tc : TypeConverter) (v : GoValue) : Except String GoValue :=
  match v with
  | .list xs => .ok (.list xs)
  | .str s =>
    match tc.hostLib.jsonList s with
    | some arr => .ok (.list arr)
    | none => .error ("cannot parse string as list: " ++ s)
  | _ => .error ("cannot convert " ++ goTypeName v ++ " to list")

def convertKuzuStruct (tc : TypeConverter) (v : GoValue) : Except String GoValue :=
  match v with
  | .map m => .ok (.map m)
  | .str s =>
    match tc.hostLib.jsonStruct s with
    | some obj => .ok (.map obj)
    | none => .error ("cannot parse string as struct: " ++ s)
  | _ => .error ("cannot convert " ++ goTypeName v ++ " to struct")

/-- Model of `ConvertKuzuValueToGo`: the engine-to-host conversion dispatch on the
declared type tag. -/
def ConvertKuzuValueToGo (tc : TypeConverter) (v : GoValue) (dt : KuzuDataType) :
    Except String GoValue :=
  match v with
  | .nil => .ok .nil
  | _ =>
    match dt with
    | .STRING => convertKuzuString v
    | .BOOL => convertKuzuBool v
    | .INT8 | .INT16 | .INT32 | .INT64 => convertKuzuInt v dt
    | .UINT8 | .UINT16 | .UINT32 | .UINT64 => convertKuzuUint v dt
    | .FLOAT | .DOUBLE => convertKuzuFloat tc v dt
    | .DATE => convertKuzuDate v
    | .TIMESTAMP => convertKuzuTimestamp v
    | .LIST => convertKuzuList tc v
    | .STRUCT => convertKuzuStruct tc v
    | _ => .ok v

/-- The round trip of the spec's §8 property: convert a host value to an
engine value, then convert it back under the returned type tag. -/
def roundTrip (tc : TypeConverter) (v : GoValue) : Except String GoValue :=
  (ConvertGoValueToKuzu tc v).bind fun p => ConvertKuzuValueToGo tc p.1 p.2

/-- Model of `PropertyConverter.ConvertProperties`: convert every value, aborting
on the first failure, naming the key. -/
def ConvertProperties (tc : TypeConverter) :
    List (String × GoValue) → Except String (List (String × GoValue))
  | [] => .ok []
  | (k, v) :: rest =>
    match convertGo tc v with
    | .error e => .error ("failed to convert property '" ++ k ++ "': " ++ e)
    | .ok (cv, _) => (ConvertProperties tc rest).map fun ys => (k, cv) :: ys

/-! ## Graph data model -/

structure Node where
  id : String
  type : String
  properties : List (String × GoValue)

structure Relationship where
  type : String
  source : Node
  target : Node
  properties : List (String × GoValue)

/-- A source document: page content plus metadata (only the "id" key is
ever read, and only when it holds a string). -/
structure Document where
  pageContent : String
  metadata : List (String × GoValue)

structure GraphDocument where
  source : Document
  nodes : List Node
  relationships : List Relationship

/-- Model of `graphs.Options`: only `IncludeSource` is read by this store. -/
structure Options where
  includeSource : Bool

/-! ## Identifier sanitization and document ids -/

/-- Model of `isLetter`: ASCII letter check on the leading byte. -/
def isLetter (c : Char) : Bool :=
  ('a' ≤ c && c ≤ 'z') || ('A' ≤ c && c ≤ 'Z')

/-- Model of `sanitizeIdentifier`: spaces and hyphens become underscores; a leading
non-letter, non-underscore gets an underscore prefix. -/
def sanitizeIdentifier (s : String) : String :=
  let l := s.data.map fun c => if c = ' ' ∨ c = '-' then '_' else c
  match l with
  | [] => String.mk []
  | c :: _ => if ¬(isLetter c) ∧ c ≠ '_' then String.mk ('_' :: l) else String.mk l

/-- Model of `generateDocumentID`: `hash = hash*31 + int(char)` over the runes of
the content, with Go's 64-bit wraparound, rendered as `doc_<hash>`. -/
def generateDocumentID (content : String) : String :=
  "doc_" ++ toString (content.data.foldl (fun a c => wrapSigned 64 (a * 31 + (c.toNat : Int))) 0)

/-- The document id used for chunk nodes: the "id" metadata entry when it
is a non-empty string, else the content-derived id. -/
def documentID (d : Document) : String :=
  let fromMeta :=
    match d.metadata.lookup ("id") with
    | some (.str s) => s
    | _ => ""
  if fromMeta = "" then generateDocumentID d.pageContent else fromMeta

/-! ## The engine state

Each query the store issues is logged as one `Stmt`; the node store models
the persisted effect of the MERGE/SET node upserts.  Relationship edges
and chunk bodies are logged but their persisted state is not modelled (no
claim inspects them).  Engine calls are modelled as succeeding. -/

inductive Stmt where
  | createNodeTbl (ty tbl : String)
  | createChunkTbl
  | createRelTbl (rel src tgt : String)
  | createMentionsTbl
  | mergeChunk (id text : String)
  | mergeNode (tbl id : String)
  | mergeNodeBatch (tbl : String) (ids : List String)
  | mergeRel (srcTbl relTbl tgtTbl sid tid : String)
  | mergeRelBatch (srcTbl relTbl tgtTbl : String) (n : Nat)
  | mergeMentions (docID tbl : String) (ids : List String)
deriving DecidableEq

/-- The record stored for one node: its `type` column and its
`properties` map column (`none` = never SET). -/
structure NodeRec where
  typeField : String
  props : Option (List (String × GoValue))

/-- Persisted nodes, keyed by (table, id); MERGE is upsert on this key. -/
abbrev NodeStore := List ((String × String) × NodeRec)

/-- The MERGE/SET upsert: always SETs the type column; SETs the
properties column only when `props` is present, otherwise an existing
value is kept and a fresh node's map stays unset. -/
def upsertNode (st : NodeStore) (tbl id ty : String)
    (props : Option (List (String × GoValue))) : NodeStore :=
  if (st.lookup (tbl, id)).isSome then
    st.map fun e =>
      if e.1 = (tbl, id) then
        ((tbl, id), ⟨ty, match props with | some p => some p | none => e.2.props⟩)
      else e
  else st ++ [((tbl, id), ⟨ty, props⟩)]

structure KState where
  log : List Stmt
  nodeTables : List String
  relTables : List String
  store : NodeStore

def freshK : KState := ⟨[], [], [], []⟩

def logStmt (s : KState) (q : Stmt) : KState := { s with log := s.log ++ [q] }

/-! ## Schema management (table creation with cache) -/

/-- Model of `createNodeTable`: no-op when the (raw) type is cached; otherwise
issue the idempotent DDL (table name sanitized) and cache the type. -/
def createNodeTable (s : KState) (ty : String) : KState :=
  if s.nodeTables.contains ty then s
  else
    let s1 := logStmt s (.createNodeTbl ty (sanitizeIdentifier ty))
    { s1 with nodeTables := ty :: s1.nodeTables }

/-- Model of `createChunkNodeTable`: the fixed Chunk table, cached under "Chunk" in
the node-table cache. -/
def createChunkNodeTable (s : KState) : KState :=
  if s.nodeTables.contains ("Chunk") then s
  else
    let s1 := logStmt s .createChunkTbl
    { s1 with nodeTables := "Chunk" :: s1.nodeTables }

/-- Model of `createRelationshipTable`: cache key is `src_rel_tgt`. -/
def createRelationshipTable (s : KState) (rel src tgt : String) : KState :=
  let key := src ++ "_" ++ rel ++ "_" ++ tgt
  if s.relTables.contains key then s
  else
    let s1 := logStmt s (.createRelTbl (sanitizeIdentifier rel)
      (sanitizeIdentifier src) (sanitizeIdentifier tgt))
    { s1 with relTables := key :: s1.relTables }

/-- Model of `createMentionsRelationshipTable`: best-effort; an engine failure is
swallowed without caching, but engine calls are modelled as succeeding. -/
def createMentionsRelationshipTable (s : KState) : KState :=
  if s.relTables.contains ("MENTIONS") then s
  else
    let s1 := logStmt s .createMentionsTbl
    { s1 with relTables := "MENTIONS" :: s1.relTables }

/-- First-seen-order deduplication, modelling iteration over a Go set
built from a list. -/
def uniqueStrings (l : List String) : List String :=
  l.foldl (fun acc ty => if acc.contains ty then acc else acc ++ [ty]) []

structure RelPattern where
  sourceType : String
  targetType : String
  relType : String

def relPatternKey (r : Relationship) : String :=
  r.source.type ++ "_" ++ r.type ++ "_" ++ r.target.type

/-- Collect the distinct relationship patterns of a batch, keyed by the
underscore-joined key string (later entries replace earlier ones with the
same key, as Go map assignment does). -/
def collectPatterns (rels : List Relationship) : List (String × RelPattern) :=
  rels.foldl (fun acc r =>
    let key := relPatternKey r
    let v : RelPattern := ⟨r.source.type, r.target.type, r.type⟩
    if (acc.lookup key).isSome then
      acc.map fun e => if e.1 = key then (key, v) else e
    else acc ++ [(key, v)]) []

/-- Model of `ensureTablesExist`: per-document table creation (node tables, Chunk,
relationship tables, MENTIONS). -/
def ensureTablesExist (s : KState) (doc : GraphDocument) : KState :=
  let s1 := (uniqueStrings (doc.nodes.map (·.type))).foldl createNodeTable s
  let s2 := createChunkNodeTable s1
  let s3 := (collectPatterns doc.relationships).foldl
    (fun acc e => createRelationshipTable acc e.2.relType e.2.sourceType e.2.targetType) s2
  createMentionsRelationshipTable s3

/-- Model of `ensureTablesForBatch`: table creation for the distinct types and
patterns of a whole batch of documents. -/
def ensureTablesForBatch (s : KState) (docs : List GraphDocument) : KState :=
  let s1 := (uniqueStrings ((docs.flatMap (·.nodes)).map (·.type))).foldl createNodeTable s
  let s2 := createChunkNodeTable s1
  let s3 := (collectPatterns (docs.flatMap (·.relationships))).foldl
    (fun acc e => createRelationshipTable acc e.2.relType e.2.sourceType e.2.targetType) s2
  createMentionsRelationshipTable s3

/-! ## Validation -/

def validateNodes : Nat → List Node → Option String
  | _, [] => none
  | i, n :: rest =>
    if n.id = "" then some ("node at index " ++ toString i ++ " has empty ID")
    else if n.type = "" then some ("node " ++ n.id ++ " has empty type")
    else validateNodes (i + 1) rest

def validateRels : Nat → List Relationship → Option String
  | _, [] => none
  | i, r :: rest =>
    if r.type = "" then some ("relationship at index " ++ toString i ++ " has empty type")
    else if r.source.id = "" then
      some ("relationship at index " ++ toString i ++ " has empty source ID")
    else if r.target.id = "" then
      some ("relationship at index " ++ toString i ++ " has empty target ID")
    else validateRels (i + 1) rest

/-- Model of `validateGraphDocument`: first violation wins; nodes are checked
before relationships. -/
def validateGraphDocument (doc : GraphDocument) : Option String :=
  match validateNodes 0 doc.nodes with
  | some e => some e
  | none => validateRels 0 doc.relationships

/-- The per-document validation loop of
`processDocumentBatchInTransaction`: all documents of the batch are
validated before anything is written. -/
def validateAllDocs : Nat → List GraphDocument → Option String
  | _, [] => none
  | i, d :: rest =>
    match validateGraphDocument d with
    | some e => some ("document " ++ toString i ++ " validation failed: " ++ e)
    | none => validateAllDocs (i + 1) rest

/-! ## The individual write path -/

/-- The value string the individual path puts in the `prop_vals` array:
the type-converted value rendered with `%v`, falling back to `%v` of the
raw value if conversion fails. -/
def stringifyPropValue (j : HostLib) (v : GoValue) : String :=
  match convertGo (NewTypeConverter j) v with
  | .ok (cv, _) => goFormat cv
  | .error _ => goFormat v

/-- Model of `addNode`'s `prop_keys`/`prop_vals` loop over the converted property
map: reserved "id"/"type" keys are skipped, values are stringified. -/
def addNodePropArrays (j : HostLib) (props : List (String × GoValue)) :
    List (String × String) :=
  (props.filter fun kv => ¬(kv.1 = "id" ∨ kv.1 = "type")).map
    fun kv => (kv.1, stringifyPropValue j kv.2)

/-- The property map `addNode` sends to the engine (after
`ConvertProperties`, reserved-key filtering and stringification), or the
conversion error that aborts the write. -/
def addNodeSentProps (j : HostLib) (props : List (String × GoValue)) :
    Except String (List (String × String)) :=
  match ConvertProperties (NewTypeConverter j) props with
  | .error e => .error ("failed to convert node properties: " ++ e)
  | .ok conv => .ok (addNodePropArrays j conv)

/-- Model of `addNode`: upsert one node by (sanitized type, id), setting its type
column and its properties map. -/
def addNode (j : HostLib) (s : KState) (n : Node) : KState × Option String :=
  if n.id = "" then (s, some ("node ID cannot be empty"))
  else
    match addNodeSentProps j n.properties with
    | .error e => (s, some e)
    | .ok sent =>
      let tbl := sanitizeIdentifier n.type
      let s1 := logStmt s (.mergeNode tbl n.id)
      let st := upsertNode s1.store tbl n.id n.type
        (some (sent.map fun kv => (kv.1, GoValue.str kv.2)))
      ({ s1 with store := st }, none)

/-- Model of `addRelationship`: match both endpoints, merge the edge, set its
properties.  Edge state is logged but not stored (no claim inspects it). -/
def addRelationship (j : HostLib) (s : KState) (r : Relationship) :
    KState × Option String :=
  if r.source.id = "" ∨ r.target.id = "" then
    (s, some ("relationship source and target IDs cannot be empty"))
  else
    match ConvertProperties (NewTypeConverter j) r.properties with
    | .error e => (s, some ("failed to convert relationship properties: " ++ e))
    | .ok _ =>
      (logStmt s (.mergeRel (sanitizeIdentifier r.source.type) (sanitizeIdentifier r.type)
        (sanitizeIdentifier r.target.type) r.source.id r.target.id), none)

/-- The node loop of `processIndividually`: each node upserted one at a
time via `addNode`, aborting on the first error. -/
def addNodesIndividually (j : HostLib) : KState → List Node → KState × Option String
  | s, [] => (s, none)
  | s, n :: rest =>
    match addNode j s n with
    | (s', some e) => (s', some e)
    | (s', none) => addNodesIndividually j s' rest

def addRelsIndividually (j : HostLib) : KState → List Relationship → KState × Option String
  | s, [] => (s, none)
  | s, r :: rest =>
    match addRelationship j s r with
    | (s', some e) => (s', some e)
    | (s', none) => addRelsIndividually j s' rest

/-- Model of `processIndividually` (the source-link branch under `IncludeSource`
is commented out in the source and does nothing). -/
def processIndividually (j : HostLib) (s : KState) (doc : GraphDocument)
    (_opts : Options) : KState × Option String :=
  match addNodesIndividually j s doc.nodes with
  | (s', some e) => (s', some e)
  | (s', none) => addRelsIndividually j s' doc.relationships

/-! ## The batched write path -/

/-- Fixed-size chunking into runs of `k + 1` elements, as the
`for i := 0; i < len; i += batchSize` slicing loops do.  The `fuel`
argument only bounds the recursion; `chunksOfPos` supplies `l.length`,
which always suffices. -/
def chunksGo {α : Type} (k : Nat) : Nat → List α → List (List α)
  | _, [] => []
  | 0, _ :: _ => []
  | fuel + 1, x :: xs => (x :: xs.take k) :: chunksGo k fuel (xs.drop k)

def chunksOfPos {α : Type} (k : Nat) (l : List α) : List (List α) :=
  chunksGo k l.length l

/-- Model of `nodesByType` grouping, in first-seen key order. -/
def groupNodesByType (nodes : List Node) : List (String × List Node) :=
  nodes.foldl (fun acc n =>
    if (acc.lookup n.type).isSome then
      acc.map fun e => if e.1 = n.type then (e.1, e.2 ++ [n]) else e
    else acc ++ [(n.type, [n])]) []

/-- Model of `relGroups` grouping by pattern key, in first-seen key order. -/
def groupRelsByPattern (rels : List Relationship) : List (String × List Relationship) :=
  rels.foldl (fun acc r =>
    if (acc.lookup (relPatternKey r)).isSome then
      acc.map fun e => if e.1 = relPatternKey r then (e.1, e.2 ++ [r]) else e
    else acc ++ [(relPatternKey r, [r])]) []

/-- Model of `insertNodeBatch`: one UNWIND/MERGE statement per chunk; the
`SET n.properties` clause is included only when the chunk's first node
has a non-empty property map, and it stores each node's *raw* property
map. -/
def insertNodeBatch (s : KState) (ty : String) (nodes : List Node) : KState :=
  match nodes with
  | [] => s
  | n0 :: _ =>
    let withProps := !n0.properties.isEmpty
    let tbl := sanitizeIdentifier ty
    let s1 := logStmt s (.mergeNodeBatch tbl (nodes.map (·.id)))
    let st := nodes.foldl (fun st n =>
      upsertNode st tbl n.id n.type (if withProps then some n.properties else none)) s1.store
    { s1 with store := st }

/-- Model of `batchInsertNodesByType`: chunks of 100. -/
def batchInsertNodesByType (s : KState) (ty : String) (nodes : List Node) : KState :=
  (chunksOfPos 99 nodes).foldl (fun acc c => insertNodeBatch acc ty c) s

/-- The node-writing portion of `processBatch`: group by type, then batch
insert each group. -/
def batchInsertAllNodes (s : KState) (nodes : List Node) : KState :=
  (groupNodesByType nodes).foldl (fun acc e => batchInsertNodesByType acc e.1 e.2) s

/-- Model of `insertRelationshipBatch`: group the chunk by pattern; one
UNWIND/MERGE statement per group (the `SET r.properties` clause depends
on the group's first relationship; edges are not stored). -/
def insertRelationshipBatch (s : KState) (rels : List Relationship) : KState :=
  (groupRelsByPattern rels).foldl (fun acc e =>
    match e.2 with
    | [] => acc
    | r0 :: _ => logStmt acc (.mergeRelBatch (sanitizeIdentifier r0.source.type)
        (sanitizeIdentifier r0.type) (sanitizeIdentifier r0.target.type) e.2.length)) s

/-- Model of `batchInsertRelationships`: chunks of 100. -/
def batchInsertRelationships (s : KState) (rels : List Relationship) : KState :=
  (chunksOfPos 99 rels).foldl insertRelationshipBatch s

def groupNodeIDsByType (nodes : List Node) : List (String × List String) :=
  nodes.foldl (fun acc n =>
    if (acc.lookup n.type).isSome then
      acc.map fun e => if e.1 = n.type then (e.1, e.2 ++ [n.id]) else e
    else acc ++ [(n.type, [n.id])]) []

/-- Model of `batchLinkNodesToSource`: one MENTIONS merge statement per node type
(skipped entirely for contentless sources). -/
def batchLinkNodesToSource (s : KState) (nodes : List Node) (doc : GraphDocument) : KState :=
  if doc.source.pageContent = "" then s
  else
    let docID := documentID doc.source
    (groupNodeIDsByType nodes).foldl (fun acc e =>
      if e.2 = [] then acc
      else logStmt acc (.mergeMentions docID (sanitizeIdentifier e.1) e.2)) s

/-- Model of `processBatch` (the non-transactional batched path): nodes grouped by
type and batch-inserted, optional source links, then relationships
grouped by pattern and batch-inserted. -/
def processBatch (s : KState) (doc : GraphDocument) (opts : Options) : KState :=
  let s1 := batchInsertAllNodes s doc.nodes
  let s2 := if opts.includeSource then batchLinkNodesToSource s1 doc.nodes doc else s1
  (groupRelsByPattern doc.relationships).foldl
    (fun acc e => batchInsertRelationships acc e.2) s2

/-! ## Entry points (non-transactional) -/

/-- Model of `processGraphDocument`: validate, ensure tables, then dispatch on the
size-10 threshold. -/
def processGraphDocument (j : HostLib) (s : KState) (doc : GraphDocument)
    (opts : Options) : KState × Option String :=
  match validateGraphDocument doc with
  | some e => (s, some ("document validation failed: " ++ e))
  | none =>
    let s1 := ensureTablesExist s doc
    if doc.nodes.length > 10 ∨ doc.relationships.length > 10 then
      (processBatch s1 doc opts, none)
    else
      processIndividually j s1 doc opts

/-- Model of `AddGraphDocument`: process each document in turn, aborting on the
first error (so validation is per document, interleaved with writes). -/
def AddGraphDocument (j : HostLib) (opts : Options) :
    KState → List GraphDocument → KState × Option String
  | s, [] => (s, none)
  | s, d :: rest =>
    match processGraphDocument j s d opts with
    | (s', some e) => (s', some e)
    | (s', none) => AddGraphDocument j opts s' rest

/-! ## The transactional path

The transaction-aware pipeline functions are routed through `tx.Query`
instead of `k.Query`; their engine effect is the same state transition
(the logical transaction handle is modelled separately below, and no
claim couples the two). -/

/-- Model of `addNodeInTransaction`'s `prop_keys`/`prop_vals` loop: unlike
`addNode`, the raw property map is used (no type conversion), reserved
keys are skipped, values rendered with `%v`. -/
def addNodeInTransactionPropArrays (props : List (String × GoValue)) :
    List (String × String) :=
  (props.filter fun kv => ¬(kv.1 = "id" ∨ kv.1 = "type")).map
    fun kv => (kv.1, goFormat kv.2)

/-- Model of `addNodeInTransaction`. -/
def addNodeInTransaction (s : KState) (n : Node) : KState × Option String :=
  if n.id = "" then (s, some ("node ID cannot be empty"))
  else
    let tbl := sanitizeIdentifier n.type
    let s1 := logStmt s (.mergeNode tbl n.id)
    let st := upsertNode s1.store tbl n.id n.type
      (some ((addNodeInTransactionPropArrays n.properties).map
        fun kv => (kv.1, GoValue.str kv.2)))
    ({ s1 with store := st }, none)

/-- Model of `addRelationshipInTransaction` (no type conversion). -/
def addRelationshipInTransaction (s : KState) (r : Relationship) :
    KState × Option String :=
  if r.source.id = "" ∨ r.target.id = "" then
    (s, some ("relationship source and target IDs cannot be empty"))
  else
    (logStmt s (.mergeRel (sanitizeIdentifier r.source.type) (sanitizeIdentifier r.type)
      (sanitizeIdentifier r.target.type) r.source.id r.target.id), none)

def addNodesIndividuallyInTx : KState → List Node → KState × Option String
  | s, [] => (s, none)
  | s, n :: rest =>
    match addNodeInTransaction s n with
    | (s', some e) => (s', some e)
    | (s', none) => addNodesIndividuallyInTx s' rest

def addRelsIndividuallyInTx : KState → List Relationship → KState × Option String
  | s, [] => (s, none)
  | s, r :: rest =>
    match addRelationshipInTransaction s r with
    | (s', some e) => (s', some e)
    | (s', none) => addRelsIndividuallyInTx s' rest

/-- Model of `processIndividuallyInTransaction` (source links commented out in the
source). -/
def processIndividuallyInTransaction (s : KState) (doc : GraphDocument)
    (_opts : Options) : KState × Option String :=
  match addNodesIndividuallyInTx s doc.nodes with
  | (s', some e) => (s', some e)
  | (s', none) => addRelsIndividuallyInTx s' doc.relationships

/-- Model of `insertNodeBatchInTransaction`: identical body to `insertNodeBatch`,
routed through the transaction handle. -/
def insertNodeBatchInTransaction (s : KState) (ty : String) (nodes : List Node) : KState :=
  insertNodeBatch s ty nodes

def batchInsertNodesByTypeInTransaction (s : KState) (ty : String) (nodes : List Node) :
    KState :=
  (chunksOfPos 99 nodes).foldl (fun acc c => insertNodeBatchInTransaction acc ty c) s

def insertRelationshipBatchInTransaction (s : KState) (rels : List Relationship) : KState :=
  insertRelationshipBatch s rels

def batchInsertRelationshipsInTransaction (s : KState) (rels : List Relationship) : KState :=
  (chunksOfPos 99 rels).foldl insertRelationshipBatchInTransaction s

/-- Model of `processBatchInTransaction` (the `IncludeSource` branch is commented
out in the source and does nothing). -/
def processBatchInTransaction (s : KState) (doc : GraphDocument) (_opts : Options) :
    KState :=
  let s1 := (groupNodesByType doc.nodes).foldl
    (fun acc e => batchInsertNodesByTypeInTransaction acc e.1 e.2) s
  (groupRelsByPattern doc.relationships).foldl
    (fun acc e => batchInsertRelationshipsInTransaction acc e.2) s1

/-- Model of `processGraphDocumentInTransaction`: ensure tables (again, per
document), then dispatch on the size-10 threshold.  Note: no validation
here; the batch entry point has already validated. -/
def processGraphDocumentInTransaction (s : KState) (doc : GraphDocument)
    (opts : Options) : KState × Option String :=
  let s1 := ensureTablesExist s doc
  if doc.nodes.length > 10 ∨ doc.relationships.length > 10 then
    (processBatchInTransaction s1 doc opts, none)
  else
    processIndividuallyInTransaction s1 doc opts

def processDocsInTx (opts : Options) : KState → List GraphDocument → KState × Option String
  | s, [] => (s, none)
  | s, d :: rest =>
    match processGraphDocumentInTransaction s d opts with
    | (s', some e) => (s', some ("failed to process document: " ++ e))
    | (s', none) => processDocsInTx opts s' rest

/-- Model of `processDocumentBatchInTransaction`: validate *all* documents of the
chunk first, then create all required tables up front, then process each
document. -/
def processDocumentBatchInTransaction (s : KState) (docs : List GraphDocument)
    (opts : Options) : KState × Option String :=
  match validateAllDocs 0 docs with
  | some e => (s, some e)
  | none =>
    let s1 := ensureTablesForBatch s docs
    processDocsInTx opts s1 docs

def processDocBatches (opts : Options) :
    KState → List (List GraphDocument) → KState × Option String
  | s, [] => (s, none)
  | s, b :: rest =>
    match processDocumentBatchInTransaction s b opts with
    | (s', some e) => (s', some ("failed to process document batch: " ++ e))
    | (s', none) => processDocBatches opts s' rest

/-- Model of `addGraphDocumentsInTransaction`: the documents are processed in
chunks of 10; each chunk is validated and written before the next chunk
is looked at. -/
def addGraphDocumentsInTransaction (s : KState) (docs : List GraphDocument)
    (opts : Options) : KState × Option String :=
  processDocBatches opts s (chunksOfPos 9 docs)

/-! ## The logical transaction state machine

`Commit`/`Rollback` issue best-effort engine statements whose failures
are swallowed; the observable behaviour is the state transition and the
returned error, modelled here.  `BeginTransaction` returns a handle that
is already `active` (the `idle` state is never observable on a returned
handle). -/

inductive TransactionState where
  | idle
  | active
  | committed
  | rolledBack
  | failed
deriving DecidableEq

def TransactionState.text : TransactionState → String
  | .idle => "idle"
  | .active => "active"
  | .committed => "committed"
  | .rolledBack => "rolled_back"
  | .failed => "failed"

structure Transaction where
  state : TransactionState
  operations : List String
deriving DecidableEq

/-- The handle `BeginTransaction` hands back: active, empty operation
log. -/
def BeginTransaction : Transaction := { state := .active, operations := [] }

/-- Model of `Commit`: error unless active; on an active handle the engine commit
is attempted (failure swallowed) and the state becomes committed. -/
def Commit (tx : Transaction) : Transaction × Option String :=
  if tx.state = .active then ({ tx with state := .committed }, none)
  else (tx, some ("transaction is not active: " ++ tx.state.text))

/-- Model of `Rollback`: allowed from active or failed; the engine rollback is
attempted (failure swallowed) and the state becomes rolled back. -/
def Rollback (tx : Transaction) : Transaction × Option String :=
  if tx.state = .active ∨ tx.state = .failed then
    ({ tx with state := .rolledBack }, none)
  else (tx, some ("transaction cannot be rolled back: " ++ tx.state.text))

/-- Model of `Close`: roll back when still active or failed; a no-op on terminal
states. -/
def Close (tx : Transaction) : Transaction × Option String :=
  match tx.state with
  | .active | .failed => Rollback tx
  | .committed | .rolledBack => (tx, none)
  | _ => (tx, none)

/-- The error `RunInTransaction` returns, separating the source's
`fmt.Errorf` shapes. -/
inductive TxRunError where
  | inner (e : String)
  | innerAndRollback (e re : String)
  | commitFailed (e : String)
deriving DecidableEq

/-- Model of `RunInTransaction`: begin, run the caller function; on error roll
back and return the inner error (combined with any rollback error); on
success commit.  The deferred `Close` runs on every exit path and its
result is discarded.  The final handle is returned alongside the error so
its state can be observed. -/
def RunInTransaction (fn : Transaction → Transaction × Option String) :
    Transaction × Option TxRunError :=
  let (tx1, ferr) := fn BeginTransaction
  match ferr with
  | some e =>
    let (tx2, rerr) := Rollback tx1
    let res : Option TxRunError :=
      match rerr with
      | some re => some (.innerAndRollback e re)
      | none => some (.inner e)
    let (tx3, _) := Close tx2
    (tx3, res)
  | none =>
    let (tx2, cerr) := Commit tx1
    let res : Option TxRunError :=
      match cerr with
      | some ce => some (.commitFailed ce)
      | none => none
    let (tx3, _) := Close tx2
    (tx3, res)

/-! ## The schema version fingerprint -/

/-- One fold step of `GetSchemaVersion`: mix in the key's length; when
the value is a string, mix in each of its runes (all with Go's 64-bit
wraparound). -/
def schemaHashStep (h : Int) (kv : String × GoValue) : Int :=
  let h1 := wrapSigned 64 (h * 31 + (kv.1.length : Int))
  match kv.2 with
  | .str s => s.data.foldl (fun a c => wrapSigned 64 (a * 31 + (c.toNat : Int))) h1
  | _ => h1

/-- Model of `GetSchemaVersion`: fold the hash over the structured-schema entries
*in iteration order* and render it as `v<hash>`.  The iteration order of
a Go map is randomized per call, so the same map may be presented in any
permutation of its entries. -/
def GetSchemaVersion (schema : List (String × GoValue)) : String :=
  "v" ++ toString (schema.foldl schemaHashStep 0)

/-! ## Deduplication -/

/-- The deduplication key of `DeduplicateRelationships`:
`sourceID_relType_targetID_sourceType_targetType`, joined with
underscores. -/
def relKey (r : Relationship) : String :=
  r.source.id ++ "_" ++ r.type ++ "_" ++ r.target.id ++ "_" ++
    (r.source.type ++ "_" ++ r.target.type)

def dedupRelsGo (seen : List String) : List Relationship → List Relationship
  | [] => []
  | r :: rest =>
    if seen.contains (relKey r) then dedupRelsGo seen rest
    else r :: dedupRelsGo (relKey r :: seen) rest

/-- Model of `DeduplicateRelationships`: keep the first occurrence of each key
string; later duplicates are silently dropped. -/
def DeduplicateRelationships (rels : List Relationship) : List Relationship :=
  dedupRelsGo [] rels

def dedupNodesGo (seen : List String) : List Node → List Node
  | [] => []
  | n :: rest =>
    if seen.contains n.id then dedupNodesGo seen rest
    else n :: dedupNodesGo (n.id :: seen) rest

/-- Model of `DeduplicateNodes`: keep the first occurrence of each id. -/
def DeduplicateNodes (nodes : List Node) : List Node :=
  dedupNodesGo [] nodes

/-! ## Auxiliary definitions used by the theorems -/

/-- The number of create-node-table DDL statements for the (raw) type
`ty` in an engine log. -/
def countCreateNode (ty : String) (log : List Stmt) : Nat :=
  log.countP fun q => match q with | .createNodeTbl t _ => t == ty | _ => false

/-- A sequence of import calls (each one `AddGraphDocument` on a batch of
documents), threading the engine state. -/
def runImports (j : HostLib) (opts : Options) (s : KState)
    (batches : List (List GraphDocument)) : KState :=
  batches.foldl (fun acc docs => (AddGraphDocument j opts acc docs).1) s

/-- The invariant relating a state to any state the pipeline can reach
from it, for a fixed node type `T`: the count of create-node-table DDL
statements for `T` never decreases, never grows once `T` is cached, grows
by at most one from an uncached state, and any growth caches `T`. -/
def CacheInv (T : String) (s s' : KState) : Prop :=
  countCreateNode T s.log ≤ countCreateNode T s'.log ∧
  (T ∈ s.nodeTables → T ∈ s'.nodeTables ∧
    countCreateNode T s'.log = countCreateNode T s.log) ∧
  countCreateNode T s'.log ≤
    countCreateNode T s.log + (if T ∈ s.nodeTables then 0 else 1) ∧
  (countCreateNode T s.log < countCreateNode T s'.log → T ∈ s'.nodeTables)

/-- A string value that the converter's heuristics leave alone: not
date-shaped, not timestamp-shaped, not JSON-shaped. -/
def isPlainString : GoValue → Bool
  | .str s => (parseDate s).isNone && (parseTimestamp s).isNone && !(isJSONString s)
  | _ => false

/-- The engine effect of one successful `addNode` call whose converted,
filtered, stringified property map round-trips to the raw map (the
plain-string case): log the merge and upsert the node with its raw
properties. -/
def indivNodeStep (s : KState) (n : Node) : KState :=
  { logStmt s (.mergeNode (sanitizeIdentifier n.type) n.id) with
    store := upsertNode s.store (sanitizeIdentifier n.type) n.id n.type (some n.properties) }

/-- A valid one-node document (used as a concrete import input). -/
def demoValidDoc : GraphDocument := ⟨⟨"", []⟩, [⟨"a", "T", []⟩], []⟩

/-- An invalid document: its node has an empty id. -/
def demoInvalidDoc : GraphDocument := ⟨⟨"", []⟩, [⟨"", "T", []⟩], []⟩

/-! # Theorems settling the claims -/

/-! ### Format/parse inverse lemmas -/

theorem digitVal_digitChar_mod (n : Nat) : digitVal (digitChar (n % 10)) = n % 10 := by
  have h : n % 10 < 10 := Nat.mod_lt _ (by omega)
  interval_cases h : n % 10 <;> rfl

theorem isDigit_digitChar_mod (n : Nat) : (digitChar (n % 10)).isDigit = true := by
  have h : n % 10 < 10 := Nat.mod_lt _ (by omega)
  interval_cases h : n % 10 <;> rfl

theorem formatZoneChars_zero : formatZoneChars 0 = ['Z'] := by
  simp [formatZoneChars]

theorem daysInMonth_le (y m : Nat) : daysInMonth y m ≤ 31 := by
  unfold daysInMonth
  split
  · split <;> omega
  · split <;> omega

theorem four_digits (n : Nat) (h : n ≤ 9999) :
    ((n / 1000 % 10 * 10 + n / 100 % 10) * 10 + n / 10 % 10) * 10 + n % 10 = n := by
  have h1 : n / 10 / 10 = n / 100 := by rw [Nat.div_div_eq_div_mul]
  have h2 : n / 100 / 10 = n / 1000 := by rw [Nat.div_div_eq_div_mul]
  have h3 : n / 1000 / 10 = n / 10000 := by rw [Nat.div_div_eq_div_mul]
  omega

theorem parseDate_formatDate (t : GoTime)
    (hy : t.year ≤ 9999) (hm1 : 1 ≤ t.month) (hm2 : t.month ≤ 12)
    (hd1 : 1 ≤ t.day) (hd2 : t.day ≤ daysInMonth t.year t.month) :
    parseDate (formatDate t) = some ⟨t.year, t.month, t.day, 0, 0, 0, 0, 0⟩ := by
  have hY := four_digits t.year hy
  have hM : t.month / 10 % 10 * 10 + t.month % 10 = t.month := by omega
  have hD : t.day / 10 % 10 * 10 + t.day % 10 = t.day := by
    have := daysInMonth_le t.year t.month; omega
  simp only [parseDate, formatDate, formatDateChars, pad4, pad2,
    List.cons_append, List.nil_append, digitVal_digitChar_mod, isDigit_digitChar_mod,
    hY, hM, hD]
  simp [hm1, hm2, hd1, hd2]

theorem parseTimestamp_formatTimestamp (t : GoTime)
    (hv : validTime t) (hoff : t.offsetMin = 0) :
    parseTimestamp (formatTimestamp t) =
      some ⟨t.year, t.month, t.day, t.hour, t.minute, t.second, 0, 0⟩ := by
  obtain ⟨hy, hm1, hm2, hd1, hd2, hh, hmi, hs⟩ := hv
  have hY := four_digits t.year hy
  have hM : t.month / 10 % 10 * 10 + t.month % 10 = t.month := by omega
  have hD : t.day / 10 % 10 * 10 + t.day % 10 = t.day := by
    have := daysInMonth_le t.year t.month; omega
  have hH : t.hour / 10 % 10 * 10 + t.hour % 10 = t.hour := by omega
  have hMi : t.minute / 10 % 10 * 10 + t.minute % 10 = t.minute := by omega
  have hS : t.second / 10 % 10 * 10 + t.second % 10 = t.second := by omega
  have hfz : parseFracZone ['Z'] = some (0, 0) := rfl
  simp only [parseTimestamp, formatTimestamp, formatDateChars, formatClockChars,
    hoff, formatZoneChars_zero, pad4, pad2, List.cons_append, List.nil_append,
    List.append_assoc, digitVal_digitChar_mod, isDigit_digitChar_mod,
    hY, hM, hD, hH, hMi, hS, hfz]
  simp [hm1, hm2, hd1, hd2, hh, hmi, hs]

/-! ## C4 and C5: the transaction state machine -/

/-- C4: for every transaction handle on which the inner function passed
to `RunInTransaction` returns an error while the handle is still active
or failed, `RunInTransaction` leaves the handle rolled back (not failed)
and returns the inner function's error (the rollback succeeds from those
states, so no rollback error is combined in). -/
theorem runInTransaction_failing_fn_rolls_back
    (fn : Transaction → Transaction × Option String) (tx1 : Transaction) (e : String)
    (hfn : fn BeginTransaction = (tx1, some e))
    (hstate : tx1.state = .active ∨ tx1.state = .failed) :
    (RunInTransaction fn).1.state = .rolledBack ∧
    (RunInTransaction fn).2 = some (.inner e) := by
  unfold RunInTransaction
  rw [hfn]
  simp only [Rollback, if_pos hstate]
  simp [Close, Rollback]

/-- Witness for C4 at a concrete failing inner function. -/
theorem runInTransaction_failing_fn_rolls_back_witness :
    (RunInTransaction fun tx => (tx, some ("boom"))).1.state = .rolledBack ∧
    (RunInTransaction fun tx => (tx, some ("boom"))).2 = some (.inner ("boom")) :=
  runInTransaction_failing_fn_rolls_back (fun tx => (tx, some ("boom")))
    BeginTransaction ("boom") rfl (Or.inl rfl)

/-- C5: `Commit` and `Rollback` on a terminal handle (committed or rolled
back) error and leave the state unchanged; `Commit` on a failed handle
errors and stays failed; and a second `Commit` after a successful
`Commit` errors without further state change. -/
theorem commit_rollback_terminal_states (tx : Transaction) :
    ((tx.state = .committed ∨ tx.state = .rolledBack) →
      (Commit tx).1 = tx ∧ (Commit tx).2.isSome ∧
      (Rollback tx).1 = tx ∧ (Rollback tx).2.isSome) ∧
    (tx.state = .failed → (Commit tx).1 = tx ∧ (Commit tx).2.isSome) ∧
    (tx.state = .active →
      (Commit tx).2 = none ∧ (Commit tx).1.state = .committed ∧
      (Commit (Commit tx).1).1 = (Commit tx).1 ∧ (Commit (Commit tx).1).2.isSome) := by
  refine ⟨fun h => ?_, fun h => ?_, fun h => ?_⟩
  · rcases h with h | h <;> simp [Commit, Rollback, h]
  · simp [Commit, h]
  · simp [Commit, h]

/-- Witness for C5 at concrete handles in each relevant state. -/
theorem commit_rollback_terminal_states_witness :
    ((Commit ⟨.committed, []⟩).1 = (⟨.committed, []⟩ : Transaction) ∧
      (Commit ⟨.committed, []⟩).2.isSome ∧
      (Rollback ⟨.committed, []⟩).1 = (⟨.committed, []⟩ : Transaction) ∧
      (Rollback ⟨.committed, []⟩).2.isSome) ∧
    ((Commit ⟨.failed, []⟩).1 = (⟨.failed, []⟩ : Transaction) ∧
      (Commit ⟨.failed, []⟩).2.isSome) ∧
    ((Commit ⟨.active, []⟩).2 = none ∧
      (Commit ⟨.active, []⟩).1.state = .committed ∧
      (Commit (Commit ⟨.active, []⟩).1).1 = (Commit ⟨.active, []⟩).1 ∧
      (Commit (Commit ⟨.active, []⟩).1).2.isSome) :=
  ⟨(commit_rollback_terminal_states ⟨.committed, []⟩).1 (Or.inl rfl),
   (commit_rollback_terminal_states ⟨.failed, []⟩).2.1 rfl,
   (commit_rollback_terminal_states ⟨.active, []⟩).2.2 rfl⟩

/-! ## C6: the schema version fingerprint -/

/-- C6: `GetSchemaVersion` is *not* deterministic over identical
snapshots: the same structured-schema map, presented in the two iteration
orders Go's randomized map iteration can produce, yields two different
fingerprints, because the hash is folded in iteration order. -/
theorem getSchemaVersion_order_dependent :
    ([("node_types", GoValue.list []), ("total_tables", GoValue.int 2)].Perm
      [("total_tables", GoValue.int 2), ("node_types", GoValue.list [])]) ∧
    GetSchemaVersion [("node_types", GoValue.list []), ("total_tables", GoValue.int 2)] ≠
      GetSchemaVersion [("total_tables", GoValue.int 2), ("node_types", GoValue.list [])] := by
  constructor
  · exact List.Perm.swap _ _ _
  · decide

/-! ## C8 and C9: deduplication -/

theorem contains_mem {l : List String} {a : String} : l.contains a = true ↔ a ∈ l := by
  simp

theorem dedupRelsGo_sublist (seen : List String) (rels : List Relationship) :
    List.Sublist (dedupRelsGo seen rels) rels := by
  induction rels generalizing seen with
  | nil => simp [dedupRelsGo]
  | cons r rest ih =>
    simp only [dedupRelsGo]
    split
    · exact (ih seen).trans (List.sublist_cons_self r rest)
    · exact (ih _).cons₂ r

theorem dedupRelsGo_not_seen (seen : List String) (rels : List Relationship) :
    ∀ r ∈ dedupRelsGo seen rels, relKey r ∉ seen := by
  induction rels generalizing seen with
  | nil => simp [dedupRelsGo]
  | cons r rest ih =>
    intro r' hr'
    simp only [dedupRelsGo] at hr'
    split at hr'
    · exact ih seen r' hr'
    · rename_i hc
      rcases List.mem_cons.mp hr' with hr' | hr'
      · subst hr'
        intro hmem
        exact hc (contains_mem.mpr hmem)
      · intro hmem
        exact ih _ r' hr' (List.mem_cons_of_mem _ hmem)

theorem dedupRelsGo_keys_nodup (seen : List String) (rels : List Relationship) :
    ((dedupRelsGo seen rels).map relKey).Nodup := by
  induction rels generalizing seen with
  | nil => simp [dedupRelsGo]
  | cons r rest ih =>
    simp only [dedupRelsGo]
    split
    · exact ih seen
    · simp only [List.map_cons, List.nodup_cons]
      refine ⟨?_, ih _⟩
      intro hmem
      obtain ⟨r', hr', hkey⟩ := List.mem_map.mp hmem
      exact dedupRelsGo_not_seen _ _ r' hr' (hkey ▸ List.mem_cons_self _ _)

theorem dedupRelsGo_keeps_first (seen : List String) (rels : List Relationship)
    (k : String) (hk : k ∉ seen) (r₀ : Relationship)
    (hfind : rels.find? (fun x => relKey x == k) = some r₀) :
    r₀ ∈ dedupRelsGo seen rels := by
  induction rels generalizing seen with
  | nil => simp at hfind
  | cons r rest ih =>
    by_cases hr : relKey r = k
    · rw [List.find?_cons_of_pos _ (by simp [hr])] at hfind
      obtain rfl : r = r₀ := by injection hfind
      simp only [dedupRelsGo]
      rw [if_neg (by intro hc; exact hk (hr ▸ contains_mem.mp hc))]
      exact List.mem_cons_self _ _
    · rw [List.find?_cons_of_neg _ (by simp [hr])] at hfind
      simp only [dedupRelsGo]
      split
      · exact ih seen hk hfind
      · refine List.mem_cons_of_mem _ (ih (relKey r :: seen) ?_ hfind)
        intro hmem
        rcases List.mem_cons.mp hmem with h | h
        · exact hr h.symm
        · exact hk h

/-- C8 (amended): `DeduplicateRelationships` keeps, for each value of the
full underscore-joined key string
`sourceID_relType_targetID_sourceType_targetType`, exactly the first
relationship in the list bearing that key, in order, dropping later
duplicates silently; relationships that share only the
(source id, type, target id) triple but differ in an endpoint type have
different keys and all survive. -/
theorem deduplicateRelationships_first_by_full_key (rels : List Relationship) :
    List.Sublist (DeduplicateRelationships rels) rels ∧
    ((DeduplicateRelationships rels).map relKey).Nodup ∧
    (∀ r ∈ rels, ∃ r₀, rels.find? (fun x => relKey x == relKey r) = some r₀ ∧
      r₀ ∈ DeduplicateRelationships rels) := by
  refine ⟨dedupRelsGo_sublist [] rels, dedupRelsGo_keys_nodup [] rels, ?_⟩
  intro r hr
  have hfind : (rels.find? (fun x => relKey x == relKey r)).isSome := by
    rw [List.find?_isSome]
    exact ⟨r, hr, by simp⟩
  obtain ⟨r₀, hr₀⟩ := Option.isSome_iff_exists.mp hfind
  exact ⟨r₀, hr₀, dedupRelsGo_keeps_first [] rels (relKey r) (by simp) r₀ hr₀⟩

/-- Witness for C8's amended theorem at a concrete two-element list. -/
theorem deduplicateRelationships_first_by_full_key_witness :
    List.Sublist
      (DeduplicateRelationships
        [⟨"KNOWS", ⟨"a", "P", []⟩, ⟨"b", "P", []⟩, []⟩,
         ⟨"KNOWS", ⟨"a", "P", []⟩, ⟨"b", "P", []⟩, []⟩])
      [⟨"KNOWS", ⟨"a", "P", []⟩, ⟨"b", "P", []⟩, []⟩,
       ⟨"KNOWS", ⟨"a", "P", []⟩, ⟨"b", "P", []⟩, []⟩] ∧
    ∃ r₀, [(⟨"KNOWS", ⟨"a", "P", []⟩, ⟨"b", "P", []⟩, []⟩ : Relationship),
        ⟨"KNOWS", ⟨"a", "P", []⟩, ⟨"b", "P", []⟩, []⟩].find?
        (fun x => relKey x == relKey (⟨"KNOWS", ⟨"a", "P", []⟩, ⟨"b", "P", []⟩, []⟩ : Relationship)) = some r₀ ∧
      r₀ ∈ DeduplicateRelationships
        [⟨"KNOWS", ⟨"a", "P", []⟩, ⟨"b", "P", []⟩, []⟩,
         ⟨"KNOWS", ⟨"a", "P", []⟩, ⟨"b", "P", []⟩, []⟩] :=
  ⟨(deduplicateRelationships_first_by_full_key _).1,
   (deduplicateRelationships_first_by_full_key _).2.2 _ (List.mem_cons_self _ _)⟩

/-- C8 (counterexample to the claim as stated): two relationships sharing
the identical (source id, relationship type, target id) triple but with
different source types both survive deduplication, so it is not the case
that only one survives. -/
theorem deduplicateRelationships_triple_insufficient :
    (let r1 : Relationship := ⟨"KNOWS", ⟨"a", "P", []⟩, ⟨"b", "P", []⟩, []⟩
     let r2 : Relationship := ⟨"KNOWS", ⟨"a", "Q", []⟩, ⟨"b", "P", []⟩, []⟩
     r1.source.id = r2.source.id ∧ r1.type = r2.type ∧ r1.target.id = r2.target.id ∧
       DeduplicateRelationships [r1, r2] = [r1, r2] ∧
       (DeduplicateRelationships [r1, r2]).length = 2) := by
  refine ⟨rfl, rfl, rfl, ?_, ?_⟩ <;> rfl

theorem dedupNodesGo_sublist (seen : List String) (nodes : List Node) :
    List.Sublist (dedupNodesGo seen nodes) nodes := by
  induction nodes generalizing seen with
  | nil => simp [dedupNodesGo]
  | cons n rest ih =>
    simp only [dedupNodesGo]
    split
    · exact (ih seen).trans (List.sublist_cons_self n rest)
    · exact (ih _).cons₂ n

theorem dedupNodesGo_not_seen (seen : List String) (nodes : List Node) :
    ∀ n ∈ dedupNodesGo seen nodes, n.id ∉ seen := by
  induction nodes generalizing seen with
  | nil => simp [dedupNodesGo]
  | cons n rest ih =>
    intro n' hn'
    simp only [dedupNodesGo] at hn'
    split at hn'
    · exact ih seen n' hn'
    · rename_i hc
      rcases List.mem_cons.mp hn' with hn' | hn'
      · subst hn'
        intro hmem
        exact hc (contains_mem.mpr hmem)
      · intro hmem
        exact ih _ n' hn' (List.mem_cons_of_mem _ hmem)

theorem dedupNodesGo_ids_nodup (seen : List String) (nodes : List Node) :
    ((dedupNodesGo seen nodes).map Node.id).Nodup := by
  induction nodes generalizing seen with
  | nil => simp [dedupNodesGo]
  | cons n rest ih =>
    simp only [dedupNodesGo]
    split
    · exact ih seen
    · simp only [List.map_cons, List.nodup_cons]
      refine ⟨?_, ih _⟩
      intro hmem
      obtain ⟨n', hn', hkey⟩ := List.mem_map.mp hmem
      exact dedupNodesGo_not_seen _ _ n' hn' (hkey ▸ List.mem_cons_self _ _)

theorem dedupNodesGo_keeps_first (seen : List String) (nodes : List Node)
    (k : String) (hk : k ∉ seen) (n₀ : Node)
    (hfind : nodes.find? (fun x => x.id == k) = some n₀) :
    n₀ ∈ dedupNodesGo seen nodes := by
  induction nodes generalizing seen with
  | nil => simp at hfind
  | cons n rest ih =>
    by_cases hn : n.id = k
    · rw [List.find?_cons_of_pos _ (by simp [hn])] at hfind
      obtain rfl : n = n₀ := by injection hfind
      simp only [dedupNodesGo]
      rw [if_neg (by intro hc; exact hk (hn ▸ contains_mem.mp hc))]
      exact List.mem_cons_self _ _
    · rw [List.find?_cons_of_neg _ (by simp [hn])] at hfind
      simp only [dedupNodesGo]
      split
      · exact ih seen hk hfind
      · refine List.mem_cons_of_mem _ (ih (n.id :: seen) ?_ hfind)
        intro hmem
        rcases List.mem_cons.mp hmem with h | h
        · exact hn h.symm
        · exact hk h

theorem dedupNodesGo_of_nodup (seen : List String) (nodes : List Node)
    (hseen : ∀ n ∈ nodes, n.id ∉ seen) (hnodup : (nodes.map Node.id).Nodup) :
    dedupNodesGo seen nodes = nodes := by
  induction nodes generalizing seen with
  | nil => simp [dedupNodesGo]
  | cons n rest ih =>
    simp only [List.map_cons, List.nodup_cons] at hnodup
    simp only [dedupNodesGo]
    rw [if_neg (by
      intro hc
      exact hseen n (List.mem_cons_self _ _) (contains_mem.mp hc))]
    congr 1
    refine ih _ ?_ hnodup.2
    intro n' hn' hmem
    rcases List.mem_cons.mp hmem with h | h
    · exact hnodup.1 (h ▸ List.mem_map_of_mem Node.id hn')
    · exact hseen n' (List.mem_cons_of_mem _ hn') h

/-- C9: `DeduplicateNodes` keeps exactly the first occurrence of each id
(the result is an order-preserving sublist with pairwise-distinct ids in
which each id's first occurrence survives), and it is idempotent. -/
theorem deduplicateNodes_first_order_idempotent (nodes : List Node) :
    List.Sublist (DeduplicateNodes nodes) nodes ∧
    ((DeduplicateNodes nodes).map Node.id).Nodup ∧
    (∀ n ∈ nodes, ∃ n₀, nodes.find? (fun x => x.id == n.id) = some n₀ ∧
      n₀ ∈ DeduplicateNodes nodes) ∧
    DeduplicateNodes (DeduplicateNodes nodes) = DeduplicateNodes nodes := by
  refine ⟨dedupNodesGo_sublist [] nodes, dedupNodesGo_ids_nodup [] nodes, ?_, ?_⟩
  · intro n hn
    have hfind : (nodes.find? (fun x => x.id == n.id)).isSome := by
      rw [List.find?_isSome]
      exact ⟨n, hn, by simp⟩
    obtain ⟨n₀, hn₀⟩ := Option.isSome_iff_exists.mp hfind
    exact ⟨n₀, hn₀, dedupNodesGo_keeps_first [] nodes n.id (by simp) n₀ hn₀⟩
  · exact dedupNodesGo_of_nodup [] _ (by simp) (dedupNodesGo_ids_nodup [] nodes)

/-- Witness for C9 at a concrete list with a duplicated id. -/
theorem deduplicateNodes_first_order_idempotent_witness :
    DeduplicateNodes [(⟨"a", "P", []⟩ : Node), ⟨"a", "Q", []⟩] = [⟨"a", "P", []⟩] ∧
    ∃ n₀, [(⟨"a", "P", []⟩ : Node), ⟨"a", "Q", []⟩].find?
        (fun x => x.id == (⟨"a", "Q", []⟩ : Node).id) = some n₀ ∧
      n₀ ∈ DeduplicateNodes [(⟨"a", "P", []⟩ : Node), ⟨"a", "Q", []⟩] :=
  ⟨rfl, (deduplicateNodes_first_order_idempotent _).2.2.1 _
    (List.mem_cons_of_mem _ (List.mem_cons_self _ _))⟩

/-! ## C10: reserved keys on the individual write path -/

/-- C10: the `prop_keys`/`prop_vals` arrays built by `addNode` (over the
converted property map) and by `addNodeInTransaction` (over the raw map)
never contain the reserved keys "id" or "type": those entries are
silently skipped, so they are never stored in the node's properties bag
on the individual path. -/
theorem individual_path_omits_reserved_keys (j : HostLib)
    (props : List (String × GoValue)) :
    "id" ∉ (addNodePropArrays j props).map Prod.fst ∧
    "type" ∉ (addNodePropArrays j props).map Prod.fst ∧
    "id" ∉ (addNodeInTransactionPropArrays props).map Prod.fst ∧
    "type" ∉ (addNodeInTransactionPropArrays props).map Prod.fst := by
  refine ⟨?_, ?_, ?_, ?_⟩ <;>
    · intro hmem
      simp only [addNodePropArrays, addNodeInTransactionPropArrays, List.map_map,
        List.mem_map, List.mem_filter] at hmem
      obtain ⟨kv, ⟨_, hres⟩, hkey⟩ := hmem
      simp only [Function.comp] at hkey
      simp [← hkey] at hres

/-! ## C3: the conversion round trip -/

/-- C3 (counterexample to the claim as stated): the supported primitive
host value `int8 5` does not survive the round trip at all —
`ConvertGoValueToKuzu` tags it INT8 and passes the `int8` carrier
through, but `ConvertKuzuValueToGo` under INT8 only accepts `int64`,
`float64` or `string` carriers, so the round trip returns a conversion
error rather than reproducing the value (and likewise for int16/int32,
uint8/16/32 and float32). -/
theorem roundTrip_fails_int8 :
    roundTrip (NewTypeConverter nullHostLib) (.int8 5) =
      .error ("cannot convert int8 to int") := by
  simp [roundTrip, ConvertGoValueToKuzu, convertGo, ConvertKuzuValueToGo,
    convertKuzuInt, goTypeName, Except.bind]

/-- C3 (amended): the round trip `FromEngineValue ∘ ToEngineValue`
reproduces the value for booleans, 64-bit and default-width integers
(Go `int` comes back as `int64` and `uint` as `uint64`), `float64`,
`nil`, strings that are not date-shaped, timestamp-shaped or JSON-shaped,
and in-range UTC times with zero nanoseconds; the narrower numeric widths
(int8/16/32, uint8/16/32, float32) instead fail with a conversion error
(see the counterexample). -/
theorem roundTrip_primitives (j : HostLib) (b : Bool) (n : Int) (m : Nat) (q : Rat)
    (s : String) (t : GoTime) :
    roundTrip (NewTypeConverter j) (.bool b) = .ok (.bool b) ∧
    roundTrip (NewTypeConverter j) (.int n) = .ok (.int64 n) ∧
    roundTrip (NewTypeConverter j) (.int64 n) = .ok (.int64 n) ∧
    roundTrip (NewTypeConverter j) (.uint m) = .ok (.uint64 m) ∧
    roundTrip (NewTypeConverter j) (.uint64 m) = .ok (.uint64 m) ∧
    roundTrip (NewTypeConverter j) (.float64 q) = .ok (.float64 q) ∧
    roundTrip (NewTypeConverter j) .nil = .ok .nil ∧
    ((parseDate s).isNone → (parseTimestamp s).isNone → isJSONString s = false →
      roundTrip (NewTypeConverter j) (.str s) = .ok (.str s)) ∧
    (validTime t → t.offsetMin = 0 → t.nano = 0 →
      roundTrip (NewTypeConverter j) (.time t) = .ok (.time t)) := by
  refine ⟨?_, ?_, ?_, ?_, ?_, ?_, ?_, ?_, ?_⟩
  · simp [roundTrip, ConvertGoValueToKuzu, convertGo, ConvertKuzuValueToGo,
      convertKuzuBool, Except.bind]
  · simp [roundTrip, ConvertGoValueToKuzu, convertGo, ConvertKuzuValueToGo,
      convertKuzuInt, Except.bind]
  · simp [roundTrip, ConvertGoValueToKuzu, convertGo, ConvertKuzuValueToGo,
      convertKuzuInt, Except.bind]
  · simp [roundTrip, ConvertGoValueToKuzu, convertGo, ConvertKuzuValueToGo,
      convertKuzuUint, Except.bind]
  · simp [roundTrip, ConvertGoValueToKuzu, convertGo, ConvertKuzuValueToGo,
      convertKuzuUint, Except.bind]
  · simp [roundTrip, ConvertGoValueToKuzu, convertGo, ConvertKuzuValueToGo,
      convertKuzuFloat, Except.bind]
  · simp [roundTrip, ConvertGoValueToKuzu, convertGo, ConvertKuzuValueToGo, Except.bind]
  · intro hd ht hj
    rw [Option.isNone_iff_eq_none] at hd ht
    simp [roundTrip, ConvertGoValueToKuzu, convertGo, convertStringVal, hd, ht, hj,
      ConvertKuzuValueToGo, convertKuzuString, Except.bind]
  · intro hv hoff hnano
    obtain ⟨hy, hm1, hm2, hd1, hd2, hh, hmi, hs⟩ := hv
    by_cases hclock : t.hour = 0 ∧ t.minute = 0 ∧ t.second = 0
    · obtain ⟨h1, h2, h3⟩ := hclock
      have hconv : convertTime t = (.str (formatDate t), .DATE) := by
        simp [convertTime, h1, h2, h3, hnano]
      have hparse := parseDate_formatDate t hy hm1 hm2 hd1 hd2
      simp only [roundTrip, ConvertGoValueToKuzu, convertGo, hconv,
        ConvertKuzuValueToGo, convertKuzuDate, Except.bind, hparse]
      obtain ⟨year, month, day, hour, minute, second, nano, off⟩ := t
      simp at h1 h2 h3 hnano hoff ⊢
      simp [h1, h2, h3, hnano, hoff]
    · have hconv : convertTime t = (.str (formatTimestamp t), .TIMESTAMP) := by
        simp only [convertTime]
        rw [if_neg]
        intro hcon
        exact hclock ⟨hcon.1, hcon.2.1, hcon.2.2.1⟩
      have hparse := parseTimestamp_formatTimestamp t
        ⟨hy, hm1, hm2, hd1, hd2, hh, hmi, hs⟩ hoff
      simp only [roundTrip, ConvertGoValueToKuzu, convertGo, hconv,
        ConvertKuzuValueToGo, convertKuzuTimestamp, Except.bind, hparse]
      obtain ⟨year, month, day, hour, minute, second, nano, off⟩ := t
      simp at hnano hoff ⊢
      simp [hnano, hoff]

/-- Witness for C3's amended theorem at concrete primitive values,
including a date-shaped time, a timestamped time and a plain string. -/
theorem roundTrip_primitives_witness :
    roundTrip (NewTypeConverter nullHostLib) (.str ("hello")) = .ok (.str ("hello")) ∧
    roundTrip (NewTypeConverter nullHostLib) (.time ⟨2024, 2, 29, 0, 0, 0, 0, 0⟩) =
      .ok (.time ⟨2024, 2, 29, 0, 0, 0, 0, 0⟩) ∧
    roundTrip (NewTypeConverter nullHostLib) (.time ⟨2024, 2, 29, 13, 45, 59, 0, 0⟩) =
      .ok (.time ⟨2024, 2, 29, 13, 45, 59, 0, 0⟩) ∧
    roundTrip (NewTypeConverter nullHostLib) (.bool true) = .ok (.bool true) := by
  have h1 := roundTrip_primitives nullHostLib true 0 0 0 ("hello") ⟨2024, 2, 29, 0, 0, 0, 0, 0⟩
  have h2 := roundTrip_primitives nullHostLib true 0 0 0 ("hello") ⟨2024, 2, 29, 13, 45, 59, 0, 0⟩
  exact ⟨h1.2.2.2.2.2.2.2.1 (by decide) (by decide) (by decide),
    h1.2.2.2.2.2.2.2.2 (by decide) rfl rfl,
    h2.2.2.2.2.2.2.2.2 (by decide) rfl rfl,
    h1.1⟩

/-! ## C7: node-table DDL is issued at most once per type -/

theorem cacheInv_refl (T : String) (s : KState) : CacheInv T s s :=
  ⟨le_refl _, fun h => ⟨h, rfl⟩, by split <;> omega, by omega⟩

theorem cacheInv_trans {T : String} {s s' s'' : KState}
    (h1 : CacheInv T s s') (h2 : CacheInv T s' s'') : CacheInv T s s'' := by
  obtain ⟨a1, b1, c1, d1⟩ := h1
  obtain ⟨a2, b2, c2, d2⟩ := h2
  refine ⟨le_trans a1 a2, ?_, ?_, ?_⟩
  · intro h
    obtain ⟨hm1, he1⟩ := b1 h
    obtain ⟨hm2, he2⟩ := b2 hm1
    exact ⟨hm2, by omega⟩
  · by_cases h : T ∈ s.nodeTables
    · obtain ⟨hm1, he1⟩ := b1 h
      obtain ⟨hm2, he2⟩ := b2 hm1
      simp [h]
      omega
    · by_cases h' : T ∈ s'.nodeTables
      · obtain ⟨hm2, he2⟩ := b2 h'
        simp [h] at c1 ⊢
        omega
      · simp [h'] at c2
        simp [h] at c1 ⊢
        have : ¬(countCreateNode T s.log < countCreateNode T s'.log) := fun hlt => h' (d1 hlt)
        omega
  · intro hlt
    by_cases h' : countCreateNode T s'.log < countCreateNode T s''.log
    · exact d2 h'
    · have : countCreateNode T s.log < countCreateNode T s'.log := by omega
      exact (b2 (d1 this)).1

/-- Any transition that leaves the DDL count unchanged and only grows the
node-table cache satisfies the invariant. -/
theorem cacheInv_of_preserve {T : String} {s s' : KState}
    (hcnt : countCreateNode T s'.log = countCreateNode T s.log)
    (htbl : T ∈ s.nodeTables → T ∈ s'.nodeTables) : CacheInv T s s' := by
  refine ⟨by omega, fun h => ⟨htbl h, hcnt⟩, by split <;> omega, by omega⟩

theorem countCreateNode_append (T : String) (l1 l2 : List Stmt) :
    countCreateNode T (l1 ++ l2) = countCreateNode T l1 + countCreateNode T l2 :=
  List.countP_append _ _ _

theorem cacheInv_logStmt (T : String) (s : KState) (q : Stmt)
    (hq : (match q with | .createNodeTbl t _ => t == T | _ => false) = false) :
    CacheInv T s (logStmt s q) := by
  refine cacheInv_of_preserve ?_ (fun h => h)
  simp [logStmt, countCreateNode, List.countP_append, List.countP_cons, hq]

theorem cacheInv_createNodeTable (T : String) (s : KState) (ty : String) :
    CacheInv T s (createNodeTable s ty) := by
  unfold createNodeTable
  split
  · exact cacheInv_refl T s
  · rename_i hc
    by_cases hty : ty = T
    · subst hty
      have hmem : ty ∉ s.nodeTables := fun h => hc (contains_mem.mpr h)
      refine ⟨?_, fun h => absurd h hmem, ?_, fun _ => List.mem_cons_self _ _⟩ <;>
        simp [logStmt, countCreateNode, List.countP_append, List.countP_cons, hmem]
    · refine cacheInv_of_preserve ?_ (fun h => List.mem_cons_of_mem _ h)
      simp [logStmt, countCreateNode, List.countP_append, List.countP_cons, hty]

theorem cacheInv_createChunk (T : String) (s : KState) :
    CacheInv T s (createChunkNodeTable s) := by
  unfold createChunkNodeTable
  split
  · exact cacheInv_refl T s
  · refine cacheInv_of_preserve ?_ (fun h => List.mem_cons_of_mem _ h)
    simp [logStmt, countCreateNode, List.countP_append, List.countP_cons]

theorem cacheInv_createRelTable (T : String) (s : KState) (rel src tgt : String) :
    CacheInv T s (createRelationshipTable s rel src tgt) := by
  unfold createRelationshipTable
  dsimp only
  split
  · exact cacheInv_refl T s
  · refine cacheInv_of_preserve ?_ (fun h => h)
    simp [logStmt, countCreateNode, List.countP_append, List.countP_cons]

theorem cacheInv_createMentions (T : String) (s : KState) :
    CacheInv T s (createMentionsRelationshipTable s) := by
  unfold createMentionsRelationshipTable
  split
  · exact cacheInv_refl T s
  · refine cacheInv_of_preserve ?_ (fun h => h)
    simp [logStmt, countCreateNode, List.countP_append, List.countP_cons]

theorem cacheInv_foldl {T : String} {β : Type} (f : KState → β → KState)
    (hf : ∀ s b, CacheInv T s (f s b)) :
    ∀ (l : List β) (s : KState), CacheInv T s (l.foldl f s) := by
  intro l
  induction l with
  | nil => intro s; exact cacheInv_refl T s
  | cons b rest ih =>
    intro s
    exact cacheInv_trans (hf s b) (ih (f s b))

theorem cacheInv_ensureTablesExist (T : String) (s : KState) (doc : GraphDocument) :
    CacheInv T s (ensureTablesExist s doc) := by
  unfold ensureTablesExist
  refine cacheInv_trans (cacheInv_foldl _ (fun s' ty => cacheInv_createNodeTable T s' ty) _ s)
    (cacheInv_trans (cacheInv_createChunk T _)
      (cacheInv_trans (cacheInv_foldl _ (fun s' (e : String × RelPattern) =>
          cacheInv_createRelTable T s' e.2.relType e.2.sourceType e.2.targetType) _ _)
        (cacheInv_createMentions T _)))

theorem cacheInv_ensureTablesForBatch (T : String) (s : KState)
    (docs : List GraphDocument) : CacheInv T s (ensureTablesForBatch s docs) := by
  unfold ensureTablesForBatch
  refine cacheInv_trans (cacheInv_foldl _ (fun s' ty => cacheInv_createNodeTable T s' ty) _ s)
    (cacheInv_trans (cacheInv_createChunk T _)
      (cacheInv_trans (cacheInv_foldl _ (fun s' (e : String × RelPattern) =>
          cacheInv_createRelTable T s' e.2.relType e.2.sourceType e.2.targetType) _ _)
        (cacheInv_createMentions T _)))

theorem cacheInv_addNode (T : String) (j : HostLib) (s : KState) (n : Node) :
    CacheInv T s (addNode j s n).1 := by
  unfold addNode
  split
  · exact cacheInv_refl T s
  · split
    · exact cacheInv_refl T s
    · exact cacheInv_of_preserve
        (by simp [logStmt, countCreateNode, List.countP_append, List.countP_cons]) (fun h => h)

theorem cacheInv_addRelationship (T : String) (j : HostLib) (s : KState)
    (r : Relationship) : CacheInv T s (addRelationship j s r).1 := by
  unfold addRelationship
  split
  · exact cacheInv_refl T s
  · split
    · exact cacheInv_refl T s
    · exact cacheInv_logStmt T s _ rfl

theorem cacheInv_addNodesIndividually (T : String) (j : HostLib) :
    ∀ (l : List Node) (s : KState), CacheInv T s (addNodesIndividually j s l).1 := by
  intro l
  induction l with
  | nil => intro s; exact cacheInv_refl T s
  | cons n rest ih =>
    intro s
    simp only [addNodesIndividually]
    have h1 := cacheInv_addNode T j s n
    rcases haddl : addNode j s n with ⟨s', e⟩
    rw [haddl] at h1
    cases e with
    | some e => exact h1
    | none => exact cacheInv_trans h1 (ih s')

theorem cacheInv_addRelsIndividually (T : String) (j : HostLib) :
    ∀ (l : List Relationship) (s : KState), CacheInv T s (addRelsIndividually j s l).1 := by
  intro l
  induction l with
  | nil => intro s; exact cacheInv_refl T s
  | cons r rest ih =>
    intro s
    simp only [addRelsIndividually]
    have h1 := cacheInv_addRelationship T j s r
    rcases haddl : addRelationship j s r with ⟨s', e⟩
    rw [haddl] at h1
    cases e with
    | some e => exact h1
    | none => exact cacheInv_trans h1 (ih s')

theorem cacheInv_processIndividually (T : String) (j : HostLib) (s : KState)
    (doc : GraphDocument) (opts : Options) :
    CacheInv T s (processIndividually j s doc opts).1 := by
  unfold processIndividually
  have h1 := cacheInv_addNodesIndividually T j doc.nodes s
  rcases haddl : addNodesIndividually j s doc.nodes with ⟨s', e⟩
  rw [haddl] at h1
  cases e with
  | some e => exact h1
  | none => exact cacheInv_trans h1 (cacheInv_addRelsIndividually T j doc.relationships s')

theorem cacheInv_insertNodeBatch (T : String) (s : KState) (ty : String)
    (nodes : List Node) : CacheInv T s (insertNodeBatch s ty nodes) := by
  unfold insertNodeBatch
  split
  · exact cacheInv_refl T s
  · exact cacheInv_of_preserve
      (by simp [logStmt, countCreateNode, List.countP_append, List.countP_cons]) (fun h => h)

theorem cacheInv_batchInsertNodesByType (T : String) (s : KState) (ty : String)
    (nodes : List Node) : CacheInv T s (batchInsertNodesByType s ty nodes) := by
  unfold batchInsertNodesByType
  exact cacheInv_foldl _ (fun s' (c : List Node) => cacheInv_insertNodeBatch T s' ty c) _ s

theorem cacheInv_batchInsertAllNodes (T : String) (s : KState) (nodes : List Node) :
    CacheInv T s (batchInsertAllNodes s nodes) := by
  unfold batchInsertAllNodes
  exact cacheInv_foldl _ (fun s' (e : String × List Node) =>
    cacheInv_batchInsertNodesByType T s' e.1 e.2) _ s

theorem cacheInv_insertRelationshipBatch (T : String) (s : KState)
    (rels : List Relationship) : CacheInv T s (insertRelationshipBatch s rels) := by
  unfold insertRelationshipBatch
  refine cacheInv_foldl _ (fun s' (e : String × List Relationship) => ?_) _ s
  cases he : e.2 with
  | nil => simp [he]; exact cacheInv_refl T s'
  | cons r0 rest =>
    simp [he]
    exact cacheInv_of_preserve
      (by simp [logStmt, countCreateNode, List.countP_append, List.countP_cons]) (fun h => h)

theorem cacheInv_batchInsertRelationships (T : String) (s : KState)
    (rels : List Relationship) : CacheInv T s (batchInsertRelationships s rels) := by
  unfold batchInsertRelationships
  exact cacheInv_foldl _ (fun s' (c : List Relationship) =>
    cacheInv_insertRelationshipBatch T s' c) _ s

theorem cacheInv_batchLinkNodesToSource (T : String) (s : KState) (nodes : List Node)
    (doc : GraphDocument) : CacheInv T s (batchLinkNodesToSource s nodes doc) := by
  unfold batchLinkNodesToSource
  split
  · exact cacheInv_refl T s
  · refine cacheInv_foldl _ (fun s' (e : String × List String) => ?_) _ s
    split
    · exact cacheInv_refl T s'
    · exact cacheInv_of_preserve
        (by simp [logStmt, countCreateNode, List.countP_append, List.countP_cons]) (fun h => h)

theorem cacheInv_processBatch (T : String) (s : KState) (doc : GraphDocument)
    (opts : Options) : CacheInv T s (processBatch s doc opts) := by
  unfold processBatch
  refine cacheInv_trans (cacheInv_batchInsertAllNodes T s doc.nodes) ?_
  refine cacheInv_trans ?_
    (cacheInv_foldl _ (fun s' (e : String × List Relationship) =>
      cacheInv_batchInsertRelationships T s' e.2) _ _)
  split
  · exact cacheInv_batchLinkNodesToSource T _ doc.nodes doc
  · exact cacheInv_refl T _

theorem cacheInv_processGraphDocument (T : String) (j : HostLib) (s : KState)
    (doc : GraphDocument) (opts : Options) :
    CacheInv T s (processGraphDocument j s doc opts).1 := by
  unfold processGraphDocument
  split
  · exact cacheInv_refl T s
  · split
    · exact cacheInv_trans (cacheInv_ensureTablesExist T s doc)
        (cacheInv_processBatch T _ doc opts)
    · exact cacheInv_trans (cacheInv_ensureTablesExist T s doc)
        (cacheInv_processIndividually T j _ doc opts)

theorem cacheInv_AddGraphDocument (T : String) (j : HostLib) (opts : Options) :
    ∀ (docs : List GraphDocument) (s : KState),
      CacheInv T s (AddGraphDocument j opts s docs).1 := by
  intro docs
  induction docs with
  | nil => intro s; exact cacheInv_refl T s
  | cons d rest ih =>
    intro s
    simp only [AddGraphDocument]
    have h1 := cacheInv_processGraphDocument T j s d opts
    rcases hp : processGraphDocument j s d opts with ⟨s', e⟩
    rw [hp] at h1
    cases e with
    | some e => exact h1
    | none => exact cacheInv_trans h1 (ih s')

theorem cacheInv_runImports (T : String) (j : HostLib) (opts : Options)
    (s : KState) (batches : List (List GraphDocument)) :
    CacheInv T s (runImports j opts s batches) := by
  unfold runImports
  exact cacheInv_foldl _ (fun s' (docs : List GraphDocument) =>
    cacheInv_AddGraphDocument T j opts docs s') _ s

/-- C7: over any sequence of imports, the create-node-table DDL statement
for a node type `T` is issued at most once (not at all when the cache
already records `T`), and once the cache records `T` as existing no
further DDL for `T` is ever issued. -/
theorem createNodeTable_ddl_at_most_once (j : HostLib) (opts : Options)
    (T : String) (s : KState) (batches : List (List GraphDocument)) :
    countCreateNode T (runImports j opts s batches).log ≤
      countCreateNode T s.log + (if T ∈ s.nodeTables then 0 else 1) ∧
    (T ∈ s.nodeTables →
      countCreateNode T (runImports j opts s batches).log = countCreateNode T s.log) :=
  ⟨(cacheInv_runImports T j opts s batches).2.2.1,
   fun h => ((cacheInv_runImports T j opts s batches).2.1 h).2⟩

/-- Witness for C7's cached clause at a concrete pre-cached state. -/
theorem createNodeTable_ddl_at_most_once_witness :
    countCreateNode ("Person")
        (runImports nullHostLib ⟨false⟩ ⟨[], ["Person"], [], []⟩ []).log =
      countCreateNode ("Person") (⟨[], ["Person"], [], []⟩ : KState).log :=
  (createNodeTable_ddl_at_most_once nullHostLib ⟨false⟩ "Person"
    ⟨[], ["Person"], [], []⟩ []).2 (List.mem_cons_self _ _)

/-! ## C2: validation is not all-or-nothing across the batch -/

/-- C2 (counterexample to the claim as stated): a two-document batch
whose second document contains a node with an empty id, passed to the
`AddGraphDocument` entry point, returns a validation error *after* engine
statements for the first document (its DDL and node merge) have already
been issued — validation happens per document, interleaved with writes,
not all-or-nothing across the batch. -/
theorem addGraphDocument_not_all_or_nothing :
    (AddGraphDocument nullHostLib ⟨false⟩ freshK [demoValidDoc, demoInvalidDoc]).2.isSome ∧
    (AddGraphDocument nullHostLib ⟨false⟩ freshK [demoValidDoc, demoInvalidDoc]).1.log ≠ [] := by
  constructor
  · decide
  · decide

theorem validateAllDocs_isSome : ∀ (docs : List GraphDocument) (i : Nat),
    (∃ d ∈ docs, (validateGraphDocument d).isSome) → (validateAllDocs i docs).isSome := by
  intro docs
  induction docs with
  | nil => intro i h; simp at h
  | cons d rest ih =>
    intro i h
    simp only [validateAllDocs]
    cases hvd : validateGraphDocument d with
    | some e => simp
    | none =>
      obtain ⟨d', hd', hv⟩ := h
      rcases List.mem_cons.mp hd' with rfl | hmem
      · rw [hvd] at hv; simp at hv
      · exact ih (i + 1) ⟨d', hmem, hv⟩

/-- C2 (amended): within one call to
`processDocumentBatchInTransaction` — the unit in which the transactional
path processes at most ten documents — validation is all-or-nothing: if
any document of the chunk is invalid, the call errors with the engine
state completely unchanged (no statement issued, no table cached, no node
written).  Across chunks, and on the plain `AddGraphDocument` path,
earlier documents are written before a later invalid one aborts the
call. -/
theorem processDocumentBatch_validation_all_or_nothing (s : KState)
    (docs : List GraphDocument) (opts : Options)
    (h : ∃ d ∈ docs, (validateGraphDocument d).isSome) :
    (processDocumentBatchInTransaction s docs opts).1 = s ∧
    (processDocumentBatchInTransaction s docs opts).2.isSome := by
  have hv := validateAllDocs_isSome docs 0 h
  obtain ⟨e, he⟩ := Option.isSome_iff_exists.mp hv
  simp [processDocumentBatchInTransaction, he]

/-- Witness for C2's amended theorem at a concrete invalid chunk. -/
theorem processDocumentBatch_validation_all_or_nothing_witness :
    (processDocumentBatchInTransaction freshK [demoInvalidDoc] ⟨false⟩).1 = freshK ∧
    (processDocumentBatchInTransaction freshK [demoInvalidDoc] ⟨false⟩).2.isSome :=
  processDocumentBatch_validation_all_or_nothing freshK [demoInvalidDoc] ⟨false⟩
    ⟨demoInvalidDoc, List.mem_cons_self _ _, by decide⟩

/-! ## C1: the individual and batched write paths -/

/-- C1 (counterexample to the claim as stated): for a one-node document
with an empty property map, the individual path stores an empty
properties map (`SET n.properties = map([], [])`), while the batched path
omits the `SET n.properties` clause entirely (the chunk's first node has
no properties) and leaves the column unset — the persisted node records
differ. -/
theorem individual_and_batched_node_paths_differ :
    (addNodesIndividually nullHostLib freshK [⟨"a", "T", []⟩]).1.store ≠
      (batchInsertAllNodes freshK [⟨"a", "T", []⟩]).store := by
  intro h
  have h1 : (addNodesIndividually nullHostLib freshK [⟨"a", "T", []⟩]).1.store =
      [(("T", "a"), ⟨"T", some []⟩)] := rfl
  have h2 : (batchInsertAllNodes freshK [⟨"a", "T", []⟩]).store =
      [(("T", "a"), ⟨"T", none⟩)] := rfl
  rw [h1, h2] at h
  simp at h

theorem convertGo_plainStr (j : HostLib) (s : String)
    (hd : parseDate s = none) (ht : parseTimestamp s = none)
    (hj : isJSONString s = false) :
    convertGo (NewTypeConverter j) (.str s) = .ok (.str s, .STRING) := by
  simp [convertGo, convertStringVal, hd, ht, hj]

theorem map_self_of_pointwise {α : Type} (f : α → α) :
    ∀ (l : List α), (∀ a ∈ l, f a = a) → l.map f = l := by
  intro l
  induction l with
  | nil => intro _; rfl
  | cons x xs ih =>
    intro h
    simp only [List.map_cons, h x (List.mem_cons_self _ _),
      ih (fun a ha => h a (List.mem_cons_of_mem _ ha))]

theorem plain_stringify_roundtrip (j : HostLib) (v : GoValue)
    (hv : isPlainString v = true) :
    GoValue.str (stringifyPropValue j v) = v := by
  cases v
  case str s =>
    simp only [isPlainString, Bool.and_eq_true, Bool.not_eq_true',
      Option.isNone_iff_eq_none] at hv
    obtain ⟨⟨hd, ht⟩, hj⟩ := hv
    rw [stringifyPropValue, convertGo_plainStr j s hd ht hj]
    simp [goFormat]
  all_goals simp [isPlainString] at hv

theorem convertProperties_plain (j : HostLib) :
    ∀ (props : List (String × GoValue)),
      (∀ kv ∈ props, isPlainString kv.2 = true) →
      ConvertProperties (NewTypeConverter j) props = .ok props := by
  intro props
  induction props with
  | nil => intro _; rfl
  | cons kv rest ih =>
    intro h
    obtain ⟨k, v⟩ := kv
    have hv := h (k, v) (List.mem_cons_self _ _)
    cases v
    case str s =>
      simp only [isPlainString, Bool.and_eq_true, Bool.not_eq_true',
        Option.isNone_iff_eq_none] at hv
      obtain ⟨⟨hd, ht⟩, hj⟩ := hv
      simp only [ConvertProperties, convertGo_plainStr j s hd ht hj]
      rw [ih (fun kv hkv => h kv (List.mem_cons_of_mem _ hkv))]
      rfl
    all_goals simp [isPlainString] at hv

theorem addNodeSentProps_plain (j : HostLib) (props : List (String × GoValue))
    (hk : ∀ kv ∈ props, ¬(kv.1 = "id" ∨ kv.1 = "type"))
    (hv : ∀ kv ∈ props, isPlainString kv.2 = true) :
    ∃ arr, addNodeSentProps j props = .ok arr ∧
      arr.map (fun kv => (kv.1, GoValue.str kv.2)) = props := by
  refine ⟨addNodePropArrays j props, ?_, ?_⟩
  · rw [addNodeSentProps, convertProperties_plain j props hv]
  · rw [addNodePropArrays]
    rw [List.filter_eq_self.mpr (by
      intro kv hkv
      simpa using hk kv hkv)]
    rw [List.map_map]
    refine map_self_of_pointwise _ props ?_
    intro kv hkv
    have h1 := plain_stringify_roundtrip j kv.2 (hv kv hkv)
    simp only [Function.comp]
    rw [h1]


theorem addNode_plain (j : HostLib) (s : KState) (n : Node)
    (hid : n.id ≠ "")
    (hk : ∀ kv ∈ n.properties, ¬(kv.1 = "id" ∨ kv.1 = "type"))
    (hv : ∀ kv ∈ n.properties, isPlainString kv.2 = true) :
    addNode j s n = (indivNodeStep s n, none) := by
  obtain ⟨arr, harr, hmap⟩ := addNodeSentProps_plain j n.properties hk hv
  rw [addNode, if_neg hid, harr]
  simp only [indivNodeStep, logStmt]
  rw [hmap]

theorem addNodesIndividually_plain (j : HostLib) :
    ∀ (l : List Node) (s : KState),
      (∀ n ∈ l, n.id ≠ "") →
      (∀ n ∈ l, ∀ kv ∈ n.properties, ¬(kv.1 = "id" ∨ kv.1 = "type")) →
      (∀ n ∈ l, ∀ kv ∈ n.properties, isPlainString kv.2 = true) →
      addNodesIndividually j s l = (l.foldl indivNodeStep s, none) := by
  intro l
  induction l with
  | nil => intro s _ _ _; rfl
  | cons n rest ih =>
    intro s hid hk hv
    simp only [addNodesIndividually]
    rw [addNode_plain j s n (hid n (List.mem_cons_self _ _))
      (hk n (List.mem_cons_self _ _)) (hv n (List.mem_cons_self _ _))]
    exact ih (indivNodeStep s n)
      (fun m hm => hid m (List.mem_cons_of_mem _ hm))
      (fun m hm => hk m (List.mem_cons_of_mem _ hm))
      (fun m hm => hv m (List.mem_cons_of_mem _ hm))

theorem foldl_indivNodeStep_store (ty : String) :
    ∀ (l : List Node) (s : KState), (∀ n ∈ l, n.type = ty) →
      (l.foldl indivNodeStep s).store =
        l.foldl (fun sto n =>
          upsertNode sto (sanitizeIdentifier ty) n.id n.type (some n.properties)) s.store := by
  intro l
  induction l with
  | nil => intro s _; rfl
  | cons n rest ih =>
    intro s h
    simp only [List.foldl_cons]
    rw [ih _ (fun m hm => h m (List.mem_cons_of_mem _ hm))]
    have hn := h n (List.mem_cons_self _ _)
    simp [indivNodeStep, logStmt, hn]

theorem groupNodesByType_aux (ty : String) :
    ∀ (l : List Node) (done : List Node), (∀ n ∈ l, n.type = ty) →
      l.foldl (fun acc n =>
        if (acc.lookup n.type).isSome then
          acc.map fun e => if e.1 = n.type then (e.1, e.2 ++ [n]) else e
        else acc ++ [(n.type, [n])]) [(ty, done)] = [(ty, done ++ l)] := by
  intro l
  induction l with
  | nil => intro done _; simp
  | cons n rest ih =>
    intro done h
    have hn := h n (List.mem_cons_self _ _)
    simp only [List.foldl_cons, hn]
    rw [if_pos (by simp)]
    have hmap : [(ty, done)].map
        (fun e => if e.1 = ty then (e.1, e.2 ++ [n]) else e) = [(ty, done ++ [n])] := by
      simp
    rw [hmap, ih (done ++ [n]) (fun m hm => h m (List.mem_cons_of_mem _ hm))]
    simp

theorem groupNodesByType_const (ty : String) (nodes : List Node)
    (h : ∀ n ∈ nodes, n.type = ty) (hne : nodes ≠ []) :
    groupNodesByType nodes = [(ty, nodes)] := by
  cases nodes with
  | nil => exact absurd rfl hne
  | cons n rest =>
    have hn := h n (List.mem_cons_self _ _)
    simp only [groupNodesByType, List.foldl_cons, List.lookup_nil, Option.isSome_none,
      Bool.false_eq_true, if_false, List.nil_append]
    rw [hn]
    exact groupNodesByType_aux ty rest [n] (fun m hm => h m (List.mem_cons_of_mem _ hm))

theorem chunksGo_insertNodeBatch_store (ty : String) :
    ∀ (fuel : Nat) (l : List Node) (s : KState), l.length ≤ fuel →
      (∀ n ∈ l, n.properties ≠ []) →
      ((chunksGo 99 fuel l).foldl (fun acc c => insertNodeBatch acc ty c) s).store =
        l.foldl (fun sto n =>
          upsertNode sto (sanitizeIdentifier ty) n.id n.type (some n.properties)) s.store := by
  intro fuel
  induction fuel with
  | zero =>
    intro l s hlen _
    have : l = [] := List.eq_nil_of_length_eq_zero (by omega)
    subst this
    rfl
  | succ fuel ih =>
    intro l s hlen hprops
    cases l with
    | nil => rfl
    | cons x xs =>
      simp only [chunksGo, List.foldl_cons]
      have hx : x.properties ≠ [] := hprops x (List.mem_cons_self _ _)
      have hbatch : (insertNodeBatch s ty (x :: xs.take 99)).store =
          (x :: xs.take 99).foldl (fun sto n =>
            upsertNode sto (sanitizeIdentifier ty) n.id n.type (some n.properties)) s.store := by
        simp only [insertNodeBatch]
        have : x.properties.isEmpty = false := by
          cases hp : x.properties with
          | nil => exact absurd hp hx
          | cons a b => rfl
        simp [this, logStmt]
      rw [ih (xs.drop 99) _ (by simp [List.length_drop] at hlen ⊢; omega)
        (fun n hn => hprops n (List.mem_cons_of_mem _ ((List.drop_sublist 99 xs).subset hn)))]
      rw [hbatch]
      rw [← List.foldl_append]
      rw [List.cons_append, List.take_append_drop]
      rw [List.foldl_cons]

/-- C1 (amended): for documents whose nodes all share a single type, have
non-empty ids and non-empty property maps free of the reserved keys "id"
and "type", and whose property values are all plain strings (not
date-shaped, timestamp-shaped or JSON-shaped), the individual write path
(`addNode` per node) and the batched write path (group by type, chunk by
100, `insertNodeBatch` per chunk) produce exactly the same persisted node
store from the same starting state — so for such documents the size-10
threshold is a performance knob only.  Without those conditions the paths
genuinely differ (see the counterexample): the batched path stores raw
unconverted property maps, keeps reserved keys, and skips the property
write entirely when a chunk's first node has no properties. -/
theorem individual_and_batched_node_paths_agree (j : HostLib) (s : KState)
    (ty : String) (nodes : List Node)
    (hty : ∀ n ∈ nodes, n.type = ty)
    (hid : ∀ n ∈ nodes, n.id ≠ "")
    (hne : ∀ n ∈ nodes, n.properties ≠ [])
    (hk : ∀ n ∈ nodes, ∀ kv ∈ n.properties, ¬(kv.1 = "id" ∨ kv.1 = "type"))
    (hv : ∀ n ∈ nodes, ∀ kv ∈ n.properties, isPlainString kv.2 = true) :
    (addNodesIndividually j s nodes).2 = none ∧
    (addNodesIndividually j s nodes).1.store = (batchInsertAllNodes s nodes).store := by
  rw [addNodesIndividually_plain j nodes s hid hk hv]
  refine ⟨rfl, ?_⟩
  cases hcase : nodes with
  | nil => simp [batchInsertAllNodes, groupNodesByType]
  | cons n0 rest =>
    rw [← hcase]
    rw [foldl_indivNodeStep_store ty nodes s hty]
    rw [batchInsertAllNodes, groupNodesByType_const ty nodes hty (by simp [hcase])]
    simp only [List.foldl_cons, List.foldl_nil]
    rw [batchInsertNodesByType, chunksOfPos,
      chunksGo_insertNodeBatch_store ty nodes.length nodes s (le_refl _) hne]

/-- Witness for C1's amended theorem at a concrete two-node document with
plain-string properties. -/
theorem individual_and_batched_node_paths_agree_witness :
    (addNodesIndividually nullHostLib freshK
      [⟨"a", "T", [("name", .str ("alice"))]⟩, ⟨"b", "T", [("name", .str ("bob"))]⟩]).2 = none ∧
    (addNodesIndividually nullHostLib freshK
      [⟨"a", "T", [("name", .str ("alice"))]⟩, ⟨"b", "T", [("name", .str ("bob"))]⟩]).1.store =
      (batchInsertAllNodes freshK
        [⟨"a", "T", [("name", .str ("alice"))]⟩, ⟨"b", "T", [("name", .str ("bob"))]⟩]).store :=
  individual_and_batched_node_paths_agree nullHostLib freshK ("T")
    [⟨"a", "T", [("name", .str ("alice"))]⟩, ⟨"b", "T", [("name", .str ("bob"))]⟩]
    (by decide) (by decide) (by simp) (by decide) (by decide)

end KuzuSpec
